import Mathlib

/-!
A shallow embedding of `legion_prof_rs/src/serialize.rs`: the Legion profiler
binary log deserializer.  Byte strings are modelled as `List Nat` (each entry a
byte value), Rust `IResult` as a three-valued result (`ok` with the remaining
input, a recoverable `nom` error, or a `fatal` outcome modelling a Rust panic
from an `assert!`/`unwrap`/map-index).  Parsers carry a proof that a successful
run never lengthens the remaining input, mirroring the fact that `nom` parsers
only consume from their input; this bound is what makes the record loop's
recursion well-founded.
-/

namespace LegionProf

theorem length_dropWhile_le (f : Nat → Bool) (l : List Nat) :
    (l.dropWhile f).length ≤ l.length := by
  induction l with
  | nil => exact Nat.le_refl _
  | cons b t ih =>
    by_cases hf : f b
    · simp only [List.dropWhile_cons, hf, if_true]
      exact Nat.le_trans ih (Nat.le_succ _)
    · simp only [List.dropWhile_cons, hf, if_false]
      exact Nat.le_refl _

/-- Outcome of running a parser: success with remaining input and a value,
a recoverable parse error (`nom` `Err`), or a fatal abort (Rust panic). -/
inductive PResult (α : Type) where
  | ok : List Nat → α → PResult α
  | err : PResult α
  | fatal : PResult α
deriving DecidableEq

/-- A parser over byte lists.  `mono` records that parsers only consume input. -/
structure Parser (α : Type) where
  run : List Nat → PResult α
  mono : ∀ input rest a, run input = .ok rest a → rest.length ≤ input.length

/-- Monadic return for parsers. -/
def ppure {α : Type} (a : α) : Parser α :=
  ⟨fun input => .ok input a, by
    intro i r b h
    injection h with h1 h2
    subst h1
    exact Nat.le_refl _⟩

/-- A parser that always fails fatally (models a Rust panic). -/
def pfatal {α : Type} : Parser α :=
  ⟨fun _ => .fatal, by intro i r a h; exact PResult.noConfusion h⟩

/-- A parser that always fails recoverably. -/
def perr {α : Type} : Parser α :=
  ⟨fun _ => .err, by intro i r a h; exact PResult.noConfusion h⟩

/-- Monadic bind for parsers, propagating `err` and `fatal`. -/
def pbind {α β : Type} (p : Parser α) (f : α → Parser β) : Parser β :=
  ⟨fun input =>
    match p.run input with
    | .ok rest a => (f a).run rest
    | .err => .err
    | .fatal => .fatal, by
    intro i r b h
    cases hp : p.run i with
    | ok r1 a =>
      simp only [hp] at h
      exact Nat.le_trans ((f a).mono _ _ _ h) (p.mono _ _ _ hp)
    | err =>
      simp only [hp] at h
      exact PResult.noConfusion h
    | fatal =>
      simp only [hp] at h
      exact PResult.noConfusion h⟩

theorem run_pbind {α β : Type} (p : Parser α) (f : α → Parser β) (input : List Nat) :
    (pbind p f).run input =
      match p.run input with
      | .ok rest a => (f a).run rest
      | .err => .err
      | .fatal => .fatal := rfl

theorem run_pbind_ok {α β : Type} {p : Parser α} {f : α → Parser β} {i r : List Nat} {a : α}
    (h : p.run i = .ok r a) : (pbind p f).run i = (f a).run r := by
  rw [run_pbind, h]

theorem run_pbind_err {α β : Type} {p : Parser α} {f : α → Parser β} {i : List Nat}
    (h : p.run i = .err) : (pbind p f).run i = .err := by
  rw [run_pbind, h]

theorem run_pbind_fatal {α β : Type} {p : Parser α} {f : α → Parser β} {i : List Nat}
    (h : p.run i = .fatal) : (pbind p f).run i = .fatal := by
  rw [run_pbind, h]

theorem run_ppure {α : Type} (a : α) (input : List Nat) :
    (ppure a).run input = .ok input a := rfl

/-! ### Primitive binary codecs (`nom::number::complete`) -/

/-- `nom::le_u8`: one byte, error on empty input. -/
def le_u8 : Parser Nat :=
  ⟨fun input =>
    match input with
    | [] => .err
    | b :: rest => .ok rest b, by
    intro i r a h
    cases i with
    | nil => exact PResult.noConfusion h
    | cons b t =>
      injection h with h1 h2
      subst h1
      exact Nat.le_succ _⟩

/-- `n` consecutive bytes combined little-endian into one natural number. -/
def le_bytes : Nat → Parser Nat
  | 0 => ppure 0
  | n + 1 => pbind le_u8 (fun b => pbind (le_bytes n) (fun v => ppure (b + 256 * v)))

/-- `nom::le_u32`: 4 bytes little-endian. -/
def le_u32 : Parser Nat := le_bytes 4

/-- `nom::le_u64`: 8 bytes little-endian. -/
def le_u64 : Parser Nat := le_bytes 8

/-- `nom::le_i32`: 4 bytes little-endian interpreted as a signed 32-bit value. -/
def le_i32 : Parser Int :=
  pbind (le_bytes 4) (fun v =>
    ppure (if v < 2147483648 then (v : Int) else (v : Int) - 4294967296))

/-- `nom::le_i64`: 8 bytes little-endian interpreted as a signed 64-bit value. -/
def le_i64 : Parser Int :=
  pbind (le_bytes 8) (fun v =>
    ppure (if v < 9223372036854775808 then (v : Int) else (v : Int) - 18446744073709551616))

/-- `parse_bool`: one byte, zero is `false`, any nonzero value is `true`. -/
def parse_bool : Parser Bool :=
  pbind le_u8 (fun x => ppure (x != 0))

/-! ### Text parser primitives (`nom::bytes::complete`) -/

/-- `nom::tag`: match an exact byte sequence. -/
def ptag (s : List Nat) : Parser Unit :=
  ⟨fun input =>
    if s.isPrefixOf input then .ok (input.drop s.length) () else .err, by
    intro i r a h
    by_cases hp : s.isPrefixOf i
    · simp only [hp, if_true] at h
      injection h with h1 h2
      subst h1
      simp [List.length_drop]
    · simp [hp] at h⟩

/-- `nom::take_while1`: consume one or more bytes satisfying `f`. -/
def take_while1 (f : Nat → Bool) : Parser (List Nat) :=
  ⟨fun input =>
    match input with
    | [] => .err
    | b :: rest =>
      if f b then .ok ((b :: rest).dropWhile f) ((b :: rest).takeWhile f) else .err, by
    intro i r a h
    cases i with
    | nil => exact PResult.noConfusion h
    | cons b t =>
      by_cases hf : f b
      · simp only [hf, if_true] at h
        injection h with h1 h2
        subst h1
        exact length_dropWhile_le _ _
      · simp [hf] at h⟩

/-- `nom::take_till`: consume zero or more bytes until `f` holds. -/
def take_till (f : Nat → Bool) : Parser (List Nat) :=
  ⟨fun input =>
    .ok (input.dropWhile (fun b => !(f b))) (input.takeWhile (fun b => !(f b))), by
    intro i r a h
    injection h with h1 h2
    subst h1
    exact length_dropWhile_le _ _⟩

/-- `nom::combinator::opt`: make a parser optional, backtracking on error. -/
def popt {α : Type} (p : Parser α) : Parser (Option α) :=
  ⟨fun input =>
    match p.run input with
    | .ok r a => .ok r (some a)
    | .err => .ok input none
    | .fatal => .fatal, by
    intro i r a h
    cases hp : p.run i with
    | ok r1 a1 =>
      simp only [hp] at h
      injection h with h1 h2
      subst h1
      exact p.mono _ _ _ hp
    | err =>
      simp only [hp] at h
      injection h with h1 h2
      subst h1
      exact Nat.le_refl _
    | fatal =>
      simp only [hp] at h
      exact PResult.noConfusion h⟩

/-- `nom::combinator::map_opt`: apply a partial function, error on `none`. -/
def pmap_opt {α β : Type} (p : Parser α) (f : α → Option β) : Parser β :=
  ⟨fun input =>
    match p.run input with
    | .ok r a =>
      match f a with
      | some b => .ok r b
      | none => .err
    | .err => .err
    | .fatal => .fatal, by
    intro i r b h
    cases hp : p.run i with
    | ok r1 a1 =>
      simp only [hp] at h
      cases hf : f a1 with
      | some b1 =>
        simp only [hf] at h
        injection h with h1 h2
        subst h1
        exact p.mono _ _ _ hp
      | none =>
        simp only [hf] at h
        exact PResult.noConfusion h
    | err =>
      simp only [hp] at h
      exact PResult.noConfusion h
    | fatal =>
      simp only [hp] at h
      exact PResult.noConfusion h⟩

/-- `many_m_n(n, n, p)`: parse exactly `n` occurrences of `p`. -/
def pcount {α : Type} : Nat → Parser α → Parser (List α)
  | 0, _ => ppure []
  | n + 1, p => pbind p (fun a => pbind (pcount n p) (fun as => ppure (a :: as)))

end LegionProf

namespace LegionProf

/-! ### UTF-8 validation (`String::from_utf8`) -/

/-- Whether a byte is a UTF-8 continuation byte (`0x80`–`0xBF`). -/
def utf8Cont (b : Nat) : Bool := 128 ≤ b && b ≤ 191

/-- Decode a byte list as UTF-8 codepoints, per the table `String::from_utf8`
implements (rejecting overlong forms and surrogates).  Returns `none` exactly
when the bytes are not valid UTF-8. -/
def utf8Chars : List Nat → Option (List Nat)
  | [] => some []
  | b0 :: rest =>
    if b0 < 128 then
      (utf8Chars rest).map (fun cs => b0 :: cs)
    else if 194 ≤ b0 && b0 ≤ 223 then
      match rest with
      | b1 :: rest2 =>
        if utf8Cont b1 then
          (utf8Chars rest2).map (fun cs => ((b0 - 192) * 64 + (b1 - 128)) :: cs)
        else none
      | [] => none
    else if 224 ≤ b0 && b0 ≤ 239 then
      match rest with
      | b1 :: b2 :: rest3 =>
        if (if b0 = 224 then 160 ≤ b1 && b1 ≤ 191
            else if b0 = 237 then 128 ≤ b1 && b1 ≤ 159
            else utf8Cont b1) && utf8Cont b2 then
          (utf8Chars rest3).map
            (fun cs => ((b0 - 224) * 4096 + (b1 - 128) * 64 + (b2 - 128)) :: cs)
        else none
      | _ => none
    else if 240 ≤ b0 && b0 ≤ 244 then
      match rest with
      | b1 :: b2 :: b3 :: rest4 =>
        if (if b0 = 240 then 144 ≤ b1 && b1 ≤ 191
            else if b0 = 244 then 128 ≤ b1 && b1 ≤ 143
            else utf8Cont b1) && utf8Cont b2 && utf8Cont b3 then
          (utf8Chars rest4).map
            (fun cs =>
              ((b0 - 240) * 262144 + (b1 - 128) * 4096 + (b2 - 128) * 64 + (b3 - 128)) :: cs)
        else none
      | _ => none
    else none

/-! ### Composite codecs: string, array, point -/

/-- `is_nul` from the source: whether a byte is the NUL terminator. -/
def is_nul (chr : Nat) : Bool := chr == 0

/-- `nom::combinator::map_res` specialised to the `String::from_utf8`
conversion used by `parse_string`: keep the raw bytes, error when they are
not valid UTF-8.  (A Rust `String` is exactly its UTF-8 byte content, so the
value is modelled as the byte list.) -/
def pmap_res_utf8 (p : Parser (List Nat)) : Parser (List Nat) :=
  ⟨fun input =>
    match p.run input with
    | .ok rest v => if (utf8Chars v).isSome then .ok rest v else .err
    | .err => .err
    | .fatal => .fatal, by
    intro i r a h
    cases hp : p.run i with
    | ok r1 v =>
      simp only [hp] at h
      by_cases hv : (utf8Chars v).isSome
      · simp only [hv, if_true] at h
        injection h with h1 h2
        subst h1
        exact p.mono _ _ _ hp
      · simp only [hv, if_false] at h
        exact PResult.noConfusion h
    | err =>
      simp only [hp] at h
      exact PResult.noConfusion h
    | fatal =>
      simp only [hp] at h
      exact PResult.noConfusion h⟩

/-- `parse_string`: take bytes until the first NUL (exclusive), require valid
UTF-8, then consume the NUL terminator (asserting it really is NUL). -/
def parse_string : Parser (List Nat) :=
  pbind (pmap_res_utf8 (take_till is_nul)) (fun value =>
    pbind le_u8 (fun terminator =>
      if is_nul terminator then ppure value else pfatal))

/-- `parse_array`: `assert!(max_dim > -1)` (panic when violated), then exactly
`max_dim * 2` little-endian `u64` values. -/
def parse_array (max_dim : Int) : Parser (List Nat) :=
  if max_dim > -1 then pcount (max_dim * 2).toNat le_u64 else pfatal

/-- `parse_point`: `assert!(max_dim > -1)` (panic when violated), then exactly
`max_dim` little-endian `u64` values. -/
def parse_point (max_dim : Int) : Parser (List Nat) :=
  if max_dim > -1 then pcount max_dim.toNat le_u64 else pfatal

/-! ### The record type

One variant per record kind, mirroring the Rust `Record` enum field for field.
Opaque identifier types (`ProcID`, `MemID`, `EventID`, …) wrap raw unsigned
integers and are modelled as `Nat`; signed fields (`i32`/`i64` and the aliases
`MaxDim`, `ProcKind`, `MemKind`, `DepPartOpKind`) as `Int`; Rust `String` as
its UTF-8 byte list; `Array`/`Point` as their `u64` value lists. -/

set_option maxHeartbeats 3200000 in
inductive Record where
  | MapperCallDesc (kind : Nat) (name : List Nat)
  | RuntimeCallDesc (kind : Nat) (name : List Nat)
  | MetaDesc (kind : Nat) (message : Bool) (ordered_vc : Bool) (name : List Nat)
  | OpDesc (kind : Nat) (name : List Nat)
  | MaxDimDesc (max_dim : Int)
  | MachineDesc (node_id : Nat) (num_nodes : Nat)
  | ZeroTime (zero_time : Int)
  | ProcDesc (proc_id : Nat) (kind : Int)
  | MemDesc (mem_id : Nat) (kind : Int) (capacity : Nat)
  | ProcMDesc (proc_id : Nat) (mem_id : Nat) (bandwidth : Nat) (latency : Nat)
  | IndexSpacePointDesc (ispace_id : Nat) (dim : Nat) (rem : List Nat)
  | IndexSpaceRectDesc (ispace_id : Nat) (dim : Nat) (rem : List Nat)
  | IndexSpaceEmptyDesc (ispace_id : Nat)
  | FieldDesc (fspace_id : Nat) (field_id : Nat) (size : Nat) (name : List Nat)
  | FieldSpaceDesc (fspace_id : Nat) (name : List Nat)
  | PartDesc (unique_id : Nat) (name : List Nat)
  | IndexSpaceDesc (ispace_id : Nat) (name : List Nat)
  | IndexSubSpaceDesc (parent_id : Nat) (ispace_id : Nat)
  | IndexPartitionDesc (parent_id : Nat) (unique_id : Nat) (disjoint : Bool) (point0 : Nat)
  | IndexSpaceSizeDesc (ispace_id : Nat) (dense_size : Nat) (sparse_size : Nat) (is_sparse : Bool)
  | LogicalRegionDesc (ispace_id : Nat) (fspace_id : Nat) (tree_id : Nat) (name : List Nat)
  | PhysicalInstRegionDesc (inst_uid : Nat) (ispace_id : Nat) (fspace_id : Nat) (tree_id : Nat)
  | PhysicalInstLayoutDesc (inst_uid : Nat) (field_id : Nat) (fspace_id : Nat)
      (has_align : Bool) (eqk : Nat) (align_desc : Nat)
  | PhysicalInstDimOrderDesc (inst_uid : Nat) (dim : Nat) (dim_kind : Nat)
  | PhysicalInstanceUsage (inst_uid : Nat) (op_id : Nat) (index_id : Nat) (field_id : Nat)
  | TaskKind (task_id : Nat) (name : List Nat) (overwrite : Bool)
  | TaskVariant (task_id : Nat) (variant_id : Nat) (name : List Nat)
  | OperationInstance (op_id : Nat) (parent_id : Nat) (kind : Nat) (provenance : List Nat)
  | MultiTask (op_id : Nat) (task_id : Nat)
  | SliceOwner (parent_id : Nat) (op_id : Nat)
  | TaskWaitInfo (op_id : Nat) (task_id : Nat) (variant_id : Nat)
      (wait_start : Nat) (wait_ready : Nat) (wait_end : Nat)
  | MetaWaitInfo (op_id : Nat) (lg_id : Nat)
      (wait_start : Nat) (wait_ready : Nat) (wait_end : Nat)
  | TaskInfo (op_id : Nat) (task_id : Nat) (variant_id : Nat) (proc_id : Nat)
      (create : Nat) (ready : Nat) (start : Nat) (stop : Nat) (fevent : Nat)
  | GPUTaskInfo (op_id : Nat) (task_id : Nat) (variant_id : Nat) (proc_id : Nat)
      (create : Nat) (ready : Nat) (start : Nat) (stop : Nat)
      (gpu_start : Nat) (gpu_stop : Nat) (fevent : Nat)
  | MetaInfo (op_id : Nat) (lg_id : Nat) (proc_id : Nat)
      (create : Nat) (ready : Nat) (start : Nat) (stop : Nat) (fevent : Nat)
  | CopyInfo (op_id : Nat) (size : Nat) (create : Nat) (ready : Nat)
      (start : Nat) (stop : Nat) (fevent : Nat) (collective : Nat)
  | CopyInstInfo (src : Nat) (dst : Nat) (src_fid : Nat) (dst_fid : Nat)
      (src_inst : Nat) (dst_inst : Nat) (fevent : Nat) (num_hops : Nat) (indirect : Bool)
  | FillInfo (op_id : Nat) (size : Nat) (create : Nat) (ready : Nat)
      (start : Nat) (stop : Nat) (fevent : Nat)
  | FillInstInfo (dst : Nat) (fid : Nat) (dst_inst : Nat) (fevent : Nat)
  | InstTimelineInfo (inst_uid : Nat) (inst_id : Nat) (mem_id : Nat) (size : Nat)
      (op_id : Nat) (create : Nat) (ready : Nat) (destroy : Nat)
  | PartitionInfo (op_id : Nat) (part_op : Int) (create : Nat) (ready : Nat)
      (start : Nat) (stop : Nat)
  | MapperCallInfo (kind : Nat) (op_id : Nat) (start : Nat) (stop : Nat)
      (proc_id : Nat) (fevent : Nat)
  | RuntimeCallInfo (kind : Nat) (start : Nat) (stop : Nat) (proc_id : Nat) (fevent : Nat)
  | ProfTaskInfo (proc_id : Nat) (op_id : Nat) (start : Nat) (stop : Nat) (fevent : Nat)
deriving DecidableEq

end LegionProf

namespace LegionProf

/-! ### Binary parsers for opaque identifier type aliases -/

def parse_event_id : Parser Nat := le_u64
def parse_inst_uid : Parser Nat := le_u64
def parse_inst_id : Parser Nat := le_u64
def parse_ipart_id : Parser Nat := le_u64
def parse_ispace_id : Parser Nat := le_u64
def parse_fspace_id : Parser Nat := le_u64
def parse_field_id : Parser Nat := le_u32
def parse_tree_id : Parser Nat := le_u32
def parse_mapper_call_kind_id : Parser Nat := le_u32
def parse_mem_id : Parser Nat := le_u64
def parse_op_id : Parser Nat := le_u64
def parse_proc_id : Parser Nat := le_u64
def parse_runtime_call_kind_id : Parser Nat := le_u32
def parse_task_id : Parser Nat := le_u32
def parse_timestamp : Parser Nat := le_u64
def parse_variant_id : Parser Nat := le_u32

/-! ### Binary parsers for records

Each mirrors the source's decode function: the same fields read with the same
primitive parsers in the same order, finishing with the record constructor.
`parse_machine_desc` widens its 4-byte node id with `u64::from`, which is the
identity here. -/

def parse_mapper_call_desc (_max_dim : Int) : Parser Record :=
  pbind parse_mapper_call_kind_id (fun kind =>
  pbind parse_string (fun name =>
  ppure (.MapperCallDesc kind name)))

def parse_runtime_call_desc (_max_dim : Int) : Parser Record :=
  pbind parse_runtime_call_kind_id (fun kind =>
  pbind parse_string (fun name =>
  ppure (.RuntimeCallDesc kind name)))

def parse_meta_desc (_max_dim : Int) : Parser Record :=
  pbind parse_variant_id (fun kind =>
  pbind parse_bool (fun message =>
  pbind parse_bool (fun ordered_vc =>
  pbind parse_string (fun name =>
  ppure (.MetaDesc kind message ordered_vc name)))))

def parse_op_desc (_max_dim : Int) : Parser Record :=
  pbind le_u32 (fun kind =>
  pbind parse_string (fun name =>
  ppure (.OpDesc kind name)))

def parse_max_dim_desc (_max_dim : Int) : Parser Record :=
  pbind le_i32 (fun max_dim1 =>
  ppure (.MaxDimDesc max_dim1))

def parse_machine_desc (_max_dim : Int) : Parser Record :=
  pbind le_u32 (fun nodeid =>
  pbind le_u32 (fun num_nodes =>
  ppure (.MachineDesc nodeid num_nodes)))

def parse_zero_time (_max_dim : Int) : Parser Record :=
  pbind le_i64 (fun zero_time =>
  ppure (.ZeroTime zero_time))

def parse_proc_desc (_max_dim : Int) : Parser Record :=
  pbind parse_proc_id (fun proc_id =>
  pbind le_i32 (fun kind =>
  ppure (.ProcDesc proc_id kind)))

def parse_mem_desc (_max_dim : Int) : Parser Record :=
  pbind parse_mem_id (fun mem_id =>
  pbind le_i32 (fun kind =>
  pbind le_u64 (fun capacity =>
  ppure (.MemDesc mem_id kind capacity))))

def parse_mem_proc_affinity_desc (_max_dim : Int) : Parser Record :=
  pbind parse_proc_id (fun proc_id =>
  pbind parse_mem_id (fun mem_id =>
  pbind le_u32 (fun bandwidth =>
  pbind le_u32 (fun latency =>
  ppure (.ProcMDesc proc_id mem_id bandwidth latency)))))

def parse_index_space_point_desc (max_dim : Int) : Parser Record :=
  pbind parse_ispace_id (fun ispace_id =>
  pbind le_u32 (fun dim =>
  pbind (parse_point max_dim) (fun rem =>
  ppure (.IndexSpacePointDesc ispace_id dim rem))))

def parse_index_space_rect_desc (max_dim : Int) : Parser Record :=
  pbind parse_ispace_id (fun ispace_id =>
  pbind le_u32 (fun dim =>
  pbind (parse_array max_dim) (fun rem =>
  ppure (.IndexSpaceRectDesc ispace_id dim rem))))

def parse_index_space_empty_desc (_max_dim : Int) : Parser Record :=
  pbind parse_ispace_id (fun ispace_id =>
  ppure (.IndexSpaceEmptyDesc ispace_id))

def parse_field_desc (_max_dim : Int) : Parser Record :=
  pbind parse_fspace_id (fun fspace_id =>
  pbind parse_field_id (fun field_id =>
  pbind le_u64 (fun size =>
  pbind parse_string (fun name =>
  ppure (.FieldDesc fspace_id field_id size name)))))

def parse_field_space_desc (_max_dim : Int) : Parser Record :=
  pbind parse_fspace_id (fun fspace_id =>
  pbind parse_string (fun name =>
  ppure (.FieldSpaceDesc fspace_id name)))

def parse_part_desc (_max_dim : Int) : Parser Record :=
  pbind parse_ipart_id (fun unique_id =>
  pbind parse_string (fun name =>
  ppure (.PartDesc unique_id name)))

def parse_index_space_desc (_max_dim : Int) : Parser Record :=
  pbind parse_ispace_id (fun ispace_id =>
  pbind parse_string (fun name =>
  ppure (.IndexSpaceDesc ispace_id name)))

def parse_index_subspace_desc (_max_dim : Int) : Parser Record :=
  pbind parse_ipart_id (fun parent_id =>
  pbind parse_ispace_id (fun ispace_id =>
  ppure (.IndexSubSpaceDesc parent_id ispace_id)))

def parse_index_partition_desc (_max_dim : Int) : Parser Record :=
  pbind parse_ispace_id (fun parent_id =>
  pbind parse_ipart_id (fun unique_id =>
  pbind parse_bool (fun disjoint =>
  pbind le_u64 (fun point0 =>
  ppure (.IndexPartitionDesc parent_id unique_id disjoint point0)))))

def parse_index_space_size_desc (_max_dim : Int) : Parser Record :=
  pbind parse_ispace_id (fun ispace_id =>
  pbind le_u64 (fun dense_size =>
  pbind le_u64 (fun sparse_size =>
  pbind parse_bool (fun is_sparse =>
  ppure (.IndexSpaceSizeDesc ispace_id dense_size sparse_size is_sparse)))))

def parse_logical_region_desc (_max_dim : Int) : Parser Record :=
  pbind parse_ispace_id (fun ispace_id =>
  pbind le_u32 (fun fspace_id =>
  pbind parse_tree_id (fun tree_id =>
  pbind parse_string (fun name =>
  ppure (.LogicalRegionDesc ispace_id fspace_id tree_id name)))))

def parse_physical_inst_region_desc (_max_dim : Int) : Parser Record :=
  pbind parse_inst_uid (fun inst_uid =>
  pbind parse_ispace_id (fun ispace_id =>
  pbind le_u32 (fun fspace_id =>
  pbind parse_tree_id (fun tree_id =>
  ppure (.PhysicalInstRegionDesc inst_uid ispace_id fspace_id tree_id)))))

def parse_physical_inst_layout_desc (_max_dim : Int) : Parser Record :=
  pbind parse_inst_uid (fun inst_uid =>
  pbind parse_field_id (fun field_id =>
  pbind le_u32 (fun fspace_id =>
  pbind parse_bool (fun has_align =>
  pbind le_u32 (fun eqk =>
  pbind le_u32 (fun align_desc =>
  ppure (.PhysicalInstLayoutDesc inst_uid field_id fspace_id has_align eqk align_desc)))))))

def parse_physical_inst_layout_dim_desc (_max_dim : Int) : Parser Record :=
  pbind parse_inst_uid (fun inst_uid =>
  pbind le_u32 (fun dim =>
  pbind le_u32 (fun dim_kind =>
  ppure (.PhysicalInstDimOrderDesc inst_uid dim dim_kind))))

def parse_physical_inst_usage (_max_dim : Int) : Parser Record :=
  pbind parse_inst_uid (fun inst_uid =>
  pbind parse_op_id (fun op_id =>
  pbind le_u32 (fun index_id =>
  pbind parse_field_id (fun field_id =>
  ppure (.PhysicalInstanceUsage inst_uid op_id index_id field_id)))))

def parse_task_kind (_max_dim : Int) : Parser Record :=
  pbind parse_task_id (fun task_id =>
  pbind parse_string (fun name =>
  pbind parse_bool (fun overwrite =>
  ppure (.TaskKind task_id name overwrite))))

def parse_task_variant (_max_dim : Int) : Parser Record :=
  pbind parse_task_id (fun task_id =>
  pbind parse_variant_id (fun variant_id =>
  pbind parse_string (fun name =>
  ppure (.TaskVariant task_id variant_id name))))

def parse_operation (_max_dim : Int) : Parser Record :=
  pbind parse_op_id (fun op_id =>
  pbind parse_op_id (fun parent_id =>
  pbind le_u32 (fun kind =>
  pbind parse_string (fun provenance =>
  ppure (.OperationInstance op_id parent_id kind provenance)))))

def parse_multi_task (_max_dim : Int) : Parser Record :=
  pbind parse_op_id (fun op_id =>
  pbind parse_task_id (fun task_id =>
  ppure (.MultiTask op_id task_id)))

def parse_slice_owner (_max_dim : Int) : Parser Record :=
  pbind le_u64 (fun parent_id =>
  pbind parse_op_id (fun op_id =>
  ppure (.SliceOwner parent_id op_id)))

def parse_task_wait_info (_max_dim : Int) : Parser Record :=
  pbind parse_op_id (fun op_id =>
  pbind parse_task_id (fun task_id =>
  pbind parse_variant_id (fun variant_id =>
  pbind parse_timestamp (fun wait_start =>
  pbind parse_timestamp (fun wait_ready =>
  pbind parse_timestamp (fun wait_end =>
  ppure (.TaskWaitInfo op_id task_id variant_id wait_start wait_ready wait_end)))))))

def parse_meta_wait_info (_max_dim : Int) : Parser Record :=
  pbind parse_op_id (fun op_id =>
  pbind parse_variant_id (fun lg_id =>
  pbind parse_timestamp (fun wait_start =>
  pbind parse_timestamp (fun wait_ready =>
  pbind parse_timestamp (fun wait_end =>
  ppure (.MetaWaitInfo op_id lg_id wait_start wait_ready wait_end))))))

def parse_task_info (_max_dim : Int) : Parser Record :=
  pbind parse_op_id (fun op_id =>
  pbind parse_task_id (fun task_id =>
  pbind parse_variant_id (fun variant_id =>
  pbind parse_proc_id (fun proc_id =>
  pbind parse_timestamp (fun create =>
  pbind parse_timestamp (fun ready =>
  pbind parse_timestamp (fun start =>
  pbind parse_timestamp (fun stop =>
  pbind parse_event_id (fun fevent =>
  ppure (.TaskInfo op_id task_id variant_id proc_id create ready start stop fevent))))))))))

def parse_gpu_task_info (_max_dim : Int) : Parser Record :=
  pbind parse_op_id (fun op_id =>
  pbind parse_task_id (fun task_id =>
  pbind parse_variant_id (fun variant_id =>
  pbind parse_proc_id (fun proc_id =>
  pbind parse_timestamp (fun create =>
  pbind parse_timestamp (fun ready =>
  pbind parse_timestamp (fun start =>
  pbind parse_timestamp (fun stop =>
  pbind parse_timestamp (fun gpu_start =>
  pbind parse_timestamp (fun gpu_stop =>
  pbind parse_event_id (fun fevent =>
  ppure (.GPUTaskInfo op_id task_id variant_id proc_id create ready start stop gpu_start gpu_stop fevent))))))))))))

def parse_meta_info (_max_dim : Int) : Parser Record :=
  pbind parse_op_id (fun op_id =>
  pbind parse_variant_id (fun lg_id =>
  pbind parse_proc_id (fun proc_id =>
  pbind parse_timestamp (fun create =>
  pbind parse_timestamp (fun ready =>
  pbind parse_timestamp (fun start =>
  pbind parse_timestamp (fun stop =>
  pbind parse_event_id (fun fevent =>
  ppure (.MetaInfo op_id lg_id proc_id create ready start stop fevent)))))))))

def parse_copy_info (_max_dim : Int) : Parser Record :=
  pbind parse_op_id (fun op_id =>
  pbind le_u64 (fun size =>
  pbind parse_timestamp (fun create =>
  pbind parse_timestamp (fun ready =>
  pbind parse_timestamp (fun start =>
  pbind parse_timestamp (fun stop =>
  pbind parse_event_id (fun fevent =>
  pbind le_u32 (fun collective =>
  ppure (.CopyInfo op_id size create ready start stop fevent collective)))))))))

def parse_copy_inst_info (_max_dim : Int) : Parser Record :=
  pbind parse_mem_id (fun src =>
  pbind parse_mem_id (fun dst =>
  pbind parse_field_id (fun src_fid =>
  pbind parse_field_id (fun dst_fid =>
  pbind parse_inst_uid (fun src_inst =>
  pbind parse_inst_uid (fun dst_inst =>
  pbind parse_event_id (fun fevent =>
  pbind le_u32 (fun num_hops =>
  pbind parse_bool (fun indirect =>
  ppure (.CopyInstInfo src dst src_fid dst_fid src_inst dst_inst fevent num_hops indirect))))))))))

def parse_fill_info (_max_dim : Int) : Parser Record :=
  pbind parse_op_id (fun op_id =>
  pbind le_u64 (fun size =>
  pbind parse_timestamp (fun create =>
  pbind parse_timestamp (fun ready =>
  pbind parse_timestamp (fun start =>
  pbind parse_timestamp (fun stop =>
  pbind parse_event_id (fun fevent =>
  ppure (.FillInfo op_id size create ready start stop fevent))))))))

def parse_fill_inst_info (_max_dim : Int) : Parser Record :=
  pbind parse_mem_id (fun dst =>
  pbind parse_field_id (fun fid =>
  pbind parse_inst_uid (fun dst_inst =>
  pbind parse_event_id (fun fevent =>
  ppure (.FillInstInfo dst fid dst_inst fevent)))))

def parse_inst_timeline (_max_dim : Int) : Parser Record :=
  pbind parse_inst_uid (fun inst_uid =>
  pbind parse_inst_id (fun inst_id =>
  pbind parse_mem_id (fun mem_id =>
  pbind le_u64 (fun size =>
  pbind parse_op_id (fun op_id =>
  pbind parse_timestamp (fun create =>
  pbind parse_timestamp (fun ready =>
  pbind parse_timestamp (fun destroy =>
  ppure (.InstTimelineInfo inst_uid inst_id mem_id size op_id create ready destroy)))))))))

def parse_partition_info (_max_dim : Int) : Parser Record :=
  pbind parse_op_id (fun op_id =>
  pbind le_i32 (fun part_op =>
  pbind parse_timestamp (fun create =>
  pbind parse_timestamp (fun ready =>
  pbind parse_timestamp (fun start =>
  pbind parse_timestamp (fun stop =>
  ppure (.PartitionInfo op_id part_op create ready start stop)))))))

def parse_mapper_call_info (_max_dim : Int) : Parser Record :=
  pbind parse_mapper_call_kind_id (fun kind =>
  pbind parse_op_id (fun op_id =>
  pbind parse_timestamp (fun start =>
  pbind parse_timestamp (fun stop =>
  pbind parse_proc_id (fun proc_id =>
  pbind parse_event_id (fun fevent =>
  ppure (.MapperCallInfo kind op_id start stop proc_id fevent)))))))

def parse_runtime_call_info (_max_dim : Int) : Parser Record :=
  pbind parse_runtime_call_kind_id (fun kind =>
  pbind parse_timestamp (fun start =>
  pbind parse_timestamp (fun stop =>
  pbind parse_proc_id (fun proc_id =>
  pbind parse_event_id (fun fevent =>
  ppure (.RuntimeCallInfo kind start stop proc_id fevent))))))

def parse_proftask_info (_max_dim : Int) : Parser Record :=
  pbind parse_proc_id (fun proc_id =>
  pbind parse_op_id (fun op_id =>
  pbind parse_timestamp (fun start =>
  pbind parse_timestamp (fun stop =>
  pbind parse_event_id (fun fevent =>
  ppure (.ProfTaskInfo proc_id op_id start stop fevent))))))

end LegionProf

namespace LegionProf

/-! ### Header grammar: value formats and format declarations -/

/-- The closed vocabulary of declared field kinds in the textual header. -/
inductive ValueFormat where
  | Array
  | Bool
  | DepPartOpKind
  | IDType
  | InstID
  | MappingCallKind
  | MaxDim
  | MemID
  | MemKind
  | MessageKind
  | Point
  | ProcID
  | ProcKind
  | RuntimeCallKind
  | String
  | TaskID
  | Timestamp
  | U32
  | U64
  | I64
  | UniqueID
  | VariantID
deriving DecidableEq

/-- One declared field inside a header record-format declaration.  Names are
kept as their ASCII byte lists. -/
structure FieldFormat where
  name : List Nat
  value : ValueFormat
  size : Int
deriving DecidableEq

/-- One declared record kind from the header. -/
structure RecordFormat where
  id : Nat
  name : List Nat
  fields : List FieldFormat
deriving DecidableEq

/-- ASCII bytes of a string literal. -/
def strBytes (s : String) : List Nat := s.toList.map (fun c => c.toNat)

/-- `convert_value_format`: the exact type-token vocabulary. -/
def convert_value_format (name : List Nat) : Option ValueFormat :=
  if name = strBytes "array" then some .Array
  else if name = strBytes "bool" then some .Bool
  else if name = strBytes "DepPartOpKind" then some .DepPartOpKind
  else if name = strBytes "IDType" then some .IDType
  else if name = strBytes "InstID" then some .InstID
  else if name = strBytes "MappingCallKind" then some .MappingCallKind
  else if name = strBytes "maxdim" then some .MaxDim
  else if name = strBytes "MemID" then some .MemID
  else if name = strBytes "MemKind" then some .MemKind
  else if name = strBytes "MessageKind" then some .MessageKind
  else if name = strBytes "point" then some .Point
  else if name = strBytes "ProcID" then some .ProcID
  else if name = strBytes "ProcKind" then some .ProcKind
  else if name = strBytes "RuntimeCallKind" then some .RuntimeCallKind
  else if name = strBytes "string" then some .String
  else if name = strBytes "TaskID" then some .TaskID
  else if name = strBytes "timestamp_t" then some .Timestamp
  else if name = strBytes "unsigned" then some .U32
  else if name = strBytes "unsigned long long" then some .U64
  else if name = strBytes "long long" then some .I64
  else if name = strBytes "UniqueID" then some .UniqueID
  else if name = strBytes "VariantID" then some .VariantID
  else none

/-! ### Text parser utilities -/

/-- `newline`: match a single `\n`. -/
def newline : Parser Unit := ptag (strBytes "\n")

/-- ASCII decimal digit. -/
def is_digit (chr : Nat) : Bool := 48 ≤ chr && chr ≤ 57

/-- ASCII alphanumeric. -/
def is_alphanumeric (chr : Nat) : Bool :=
  (48 ≤ chr && chr ≤ 57) || (65 ≤ chr && chr ≤ 90) || (97 ≤ chr && chr ≤ 122)

def is_alphanumeric_underscore (chr : Nat) : Bool :=
  is_alphanumeric chr || chr == 95

def is_alphanumeric_space (chr : Nat) : Bool :=
  is_alphanumeric_underscore chr || chr == 32

/-- The numeric value of a decimal digit string. -/
def digitsVal (ds : List Nat) : Nat := ds.foldl (fun a c => 10 * a + (c - 48)) 0

/-- `parse_text_u32`: one or more digits parsed as a `u32`; the Rust
`parse::<u32>().unwrap()` panics on overflow. -/
def parse_text_u32 : Parser Nat :=
  pbind (take_while1 is_digit) (fun ds =>
    if digitsVal ds < 4294967296 then ppure (digitsVal ds) else pfatal)

/-- `parse_text_i32`: optional minus sign, then digits parsed as an `i32`
(`parse::<i32>().unwrap()` panics above `i32::MAX`), then negated if signed. -/
def parse_text_i32 : Parser Int :=
  pbind (popt (ptag (strBytes "-"))) (fun sign =>
  pbind (take_while1 is_digit) (fun ds =>
    if digitsVal ds ≤ 2147483647 then
      ppure (match sign with
        | some _ => -(digitsVal ds : Int)
        | none => (digitsVal ds : Int))
    else pfatal))

/-- `parse_text_name`: one or more alphanumeric/underscore bytes. -/
def parse_text_name : Parser (List Nat) := take_while1 is_alphanumeric_underscore

/-- `parse_text_type`: one or more alphanumeric/underscore/space bytes. -/
def parse_text_type : Parser (List Nat) := take_while1 is_alphanumeric_space

/-! ### Text parsers for the log file header -/

/-- `parse_filetype`: the `FileType: BinaryLegionProf v: <major>.<minor>\n` line. -/
def parse_filetype : Parser (Nat × Nat) :=
  pbind (ptag (strBytes "FileType: BinaryLegionProf v: ")) (fun _ =>
  pbind parse_text_u32 (fun version_major =>
  pbind (ptag (strBytes ".")) (fun _ =>
  pbind parse_text_u32 (fun version_minor =>
  pbind newline (fun _ => ppure (version_major, version_minor))))))

/-- `parse_value_format`: a type token looked up in the fixed vocabulary;
an unrecognized token is a parse error (`map_opt`). -/
def parse_value_format : Parser ValueFormat :=
  pmap_opt parse_text_type convert_value_format

/-- `parse_field_format`: `<fieldname>:<typetoken>:<signed-decimal-size>`. -/
def parse_field_format : Parser FieldFormat :=
  pbind parse_text_name (fun name =>
  pbind (ptag (strBytes ":")) (fun _ =>
  pbind parse_value_format (fun value =>
  pbind (ptag (strBytes ":")) (fun _ =>
  pbind parse_text_i32 (fun size => ppure ⟨name, value, size⟩)))))

/-- Iteration core of `nom::separated_list1`: repeatedly parse separator then
element, backtracking over the separator when the element (or separator) fails.
The fuel argument bounds the number of iterations; the caller passes the
remaining input length, which suffices because each iteration of the uses in
this file consumes at least one byte. -/
def psep_iter {β α : Type} (sep : Parser β) (p : Parser α) :
    Nat → List Nat → PResult (List α)
  | 0, input => .ok input []
  | fuel + 1, input =>
    match sep.run input with
    | .err => .ok input []
    | .fatal => .fatal
    | .ok input1 _ =>
      match p.run input1 with
      | .err => .ok input []
      | .fatal => .fatal
      | .ok input2 a =>
        match psep_iter sep p fuel input2 with
        | .ok rest as => .ok rest (a :: as)
        | .err => .err
        | .fatal => .fatal

theorem psep_iter_mono {β α : Type} (sep : Parser β) (p : Parser α) :
    ∀ fuel input rest as, psep_iter sep p fuel input = .ok rest as →
      rest.length ≤ input.length := by
  intro fuel
  induction fuel with
  | zero =>
    intro input rest as h
    injection h with h1 h2
    subst h1
    exact Nat.le_refl _
  | succ n ih =>
    intro input rest as h
    simp only [psep_iter] at h
    cases hs : sep.run input with
    | err =>
      simp only [hs] at h
      injection h with h1 h2
      subst h1
      exact Nat.le_refl _
    | fatal =>
      simp only [hs] at h
      exact PResult.noConfusion h
    | ok input1 b =>
      simp only [hs] at h
      cases hp : p.run input1 with
      | err =>
        simp only [hp] at h
        injection h with h1 h2
        subst h1
        exact Nat.le_refl _
      | fatal =>
        simp only [hp] at h
        exact PResult.noConfusion h
      | ok input2 a =>
        simp only [hp] at h
        cases hrec : psep_iter sep p n input2 with
        | ok rest2 as2 =>
          simp only [hrec] at h
          injection h with h1 h2
          subst h1
          exact Nat.le_trans (Nat.le_trans (ih _ _ _ hrec) (p.mono _ _ _ hp))
            (sep.mono _ _ _ hs)
        | err =>
          simp only [hrec] at h
          exact PResult.noConfusion h
        | fatal =>
          simp only [hrec] at h
          exact PResult.noConfusion h

/-- `nom::separated_list1`: one element, then separator-prefixed elements. -/
def psep_list1 {β α : Type} (sep : Parser β) (p : Parser α) : Parser (List α) :=
  ⟨fun input =>
    match p.run input with
    | .err => .err
    | .fatal => .fatal
    | .ok input1 a =>
      match psep_iter sep p input1.length input1 with
      | .ok rest as => .ok rest (a :: as)
      | .err => .err
      | .fatal => .fatal, by
    intro i r a h
    cases hp : p.run i with
    | err =>
      simp only [hp] at h
      exact PResult.noConfusion h
    | fatal =>
      simp only [hp] at h
      exact PResult.noConfusion h
    | ok i1 a1 =>
      simp only [hp] at h
      cases hit : psep_iter sep p i1.length i1 with
      | ok rest2 as2 =>
        simp only [hit] at h
        injection h with h1 h2
        subst h1
        exact Nat.le_trans (psep_iter_mono _ _ _ _ _ _ hit) (p.mono _ _ _ hp)
      | err =>
        simp only [hit] at h
        exact PResult.noConfusion h
      | fatal =>
        simp only [hit] at h
        exact PResult.noConfusion h⟩

/-- `parse_record_format`: `<Name> {id:<u32>, <field>, <field>, ...}\n`. -/
def parse_record_format : Parser RecordFormat :=
  pbind parse_text_name (fun name =>
  pbind (ptag (strBytes " \x7bid:")) (fun _ =>
  pbind parse_text_u32 (fun id =>
  pbind (ptag (strBytes ", ")) (fun _ =>
  pbind (psep_list1 (ptag (strBytes ", ")) parse_field_format) (fun fields =>
  pbind (ptag (strBytes "\x7d")) (fun _ =>
  pbind newline (fun _ => ppure ⟨id, name, fields⟩)))))))

/-- Iteration core of `nom::multi::many1`: repeat a parser until it errors.
Fuel as in `psep_iter`; callers pass the input length, which suffices because
`parse_record_format` always consumes at least one byte. -/
def pmany_iter {α : Type} (p : Parser α) : Nat → List Nat → PResult (List α)
  | 0, input => .ok input []
  | fuel + 1, input =>
    match p.run input with
    | .err => .ok input []
    | .fatal => .fatal
    | .ok input1 a =>
      match pmany_iter p fuel input1 with
      | .ok rest as => .ok rest (a :: as)
      | .err => .err
      | .fatal => .fatal

theorem pmany_iter_mono {α : Type} (p : Parser α) :
    ∀ fuel input rest as, pmany_iter p fuel input = .ok rest as →
      rest.length ≤ input.length := by
  intro fuel
  induction fuel with
  | zero =>
    intro input rest as h
    injection h with h1 h2
    subst h1
    exact Nat.le_refl _
  | succ n ih =>
    intro input rest as h
    simp only [pmany_iter] at h
    cases hp : p.run input with
    | err =>
      simp only [hp] at h
      injection h with h1 h2
      subst h1
      exact Nat.le_refl _
    | fatal =>
      simp only [hp] at h
      exact PResult.noConfusion h
    | ok input1 a =>
      simp only [hp] at h
      cases hrec : pmany_iter p n input1 with
      | ok rest2 as2 =>
        simp only [hrec] at h
        injection h with h1 h2
        subst h1
        exact Nat.le_trans (ih _ _ _ hrec) (p.mono _ _ _ hp)
      | err =>
        simp only [hrec] at h
        exact PResult.noConfusion h
      | fatal =>
        simp only [hrec] at h
        exact PResult.noConfusion h

/-- `nom::multi::many1`: one or more occurrences. -/
def pmany1 {α : Type} (p : Parser α) : Parser (List α) :=
  ⟨fun input =>
    match p.run input with
    | .err => .err
    | .fatal => .fatal
    | .ok input1 a =>
      match pmany_iter p input1.length input1 with
      | .ok rest as => .ok rest (a :: as)
      | .err => .err
      | .fatal => .fatal, by
    intro i r a h
    cases hp : p.run i with
    | err =>
      simp only [hp] at h
      exact PResult.noConfusion h
    | fatal =>
      simp only [hp] at h
      exact PResult.noConfusion h
    | ok i1 a1 =>
      simp only [hp] at h
      cases hit : pmany_iter p i1.length i1 with
      | ok rest2 as2 =>
        simp only [hit] at h
        injection h with h1 h2
        subst h1
        exact Nat.le_trans (pmany_iter_mono _ _ _ _ _ hit) (p.mono _ _ _ hp)
      | err =>
        simp only [hit] at h
        exact PResult.noConfusion h
      | fatal =>
        simp only [hit] at h
        exact PResult.noConfusion h⟩

end LegionProf

namespace LegionProf

/-! ### Association maps (`BTreeMap::insert` / lookup / `Index` panic) -/

/-- `BTreeMap::insert`: replace the binding for an existing key, else append. -/
def insertAssoc {κ ν : Type} [DecidableEq κ] : List (κ × ν) → κ → ν → List (κ × ν)
  | [], k, v => [(k, v)]
  | (k1, v1) :: t, k, v =>
    if k1 = k then (k, v) :: t else (k1, v1) :: insertAssoc t k v

/-- Map lookup; `none` corresponds to the `Index` operator's panic. -/
def lookupAssoc {κ ν : Type} [DecidableEq κ] : List (κ × ν) → κ → Option ν
  | [], _ => none
  | (k1, v1) :: t, k => if k1 = k then some v1 else lookupAssoc t k

/-- The id→decoder dispatch table built from the header. -/
abbrev Table := List (Nat × (Int → Parser Record))

/-- The fixed, hard-coded list of required record-kind names and their decode
functions, in the source's insertion order (`parsers.insert(ids[...], ...)`). -/
def requiredParsers : List (List Nat × (Int → Parser Record)) :=
  [(strBytes "MapperCallDesc", parse_mapper_call_desc),
   (strBytes "RuntimeCallDesc", parse_runtime_call_desc),
   (strBytes "MetaDesc", parse_meta_desc),
   (strBytes "OpDesc", parse_op_desc),
   (strBytes "MaxDimDesc", parse_max_dim_desc),
   (strBytes "MachineDesc", parse_machine_desc),
   (strBytes "ZeroTime", parse_zero_time),
   (strBytes "ProcDesc", parse_proc_desc),
   (strBytes "MemDesc", parse_mem_desc),
   (strBytes "ProcMDesc", parse_mem_proc_affinity_desc),
   (strBytes "IndexSpacePointDesc", parse_index_space_point_desc),
   (strBytes "IndexSpaceRectDesc", parse_index_space_rect_desc),
   (strBytes "IndexSpaceEmptyDesc", parse_index_space_empty_desc),
   (strBytes "FieldDesc", parse_field_desc),
   (strBytes "FieldSpaceDesc", parse_field_space_desc),
   (strBytes "PartDesc", parse_part_desc),
   (strBytes "IndexSpaceDesc", parse_index_space_desc),
   (strBytes "IndexSubSpaceDesc", parse_index_subspace_desc),
   (strBytes "IndexPartitionDesc", parse_index_partition_desc),
   (strBytes "IndexSpaceSizeDesc", parse_index_space_size_desc),
   (strBytes "LogicalRegionDesc", parse_logical_region_desc),
   (strBytes "PhysicalInstRegionDesc", parse_physical_inst_region_desc),
   (strBytes "PhysicalInstLayoutDesc", parse_physical_inst_layout_desc),
   (strBytes "PhysicalInstDimOrderDesc", parse_physical_inst_layout_dim_desc),
   (strBytes "PhysicalInstanceUsage", parse_physical_inst_usage),
   (strBytes "TaskKind", parse_task_kind),
   (strBytes "TaskVariant", parse_task_variant),
   (strBytes "OperationInstance", parse_operation),
   (strBytes "MultiTask", parse_multi_task),
   (strBytes "SliceOwner", parse_slice_owner),
   (strBytes "TaskWaitInfo", parse_task_wait_info),
   (strBytes "MetaWaitInfo", parse_meta_wait_info),
   (strBytes "TaskInfo", parse_task_info),
   (strBytes "GPUTaskInfo", parse_gpu_task_info),
   (strBytes "MetaInfo", parse_meta_info),
   (strBytes "CopyInfo", parse_copy_info),
   (strBytes "CopyInstInfo", parse_copy_inst_info),
   (strBytes "FillInfo", parse_fill_info),
   (strBytes "FillInstInfo", parse_fill_inst_info),
   (strBytes "InstTimelineInfo", parse_inst_timeline),
   (strBytes "PartitionInfo", parse_partition_info),
   (strBytes "MapperCallInfo", parse_mapper_call_info),
   (strBytes "RuntimeCallInfo", parse_runtime_call_info),
   (strBytes "ProfTaskInfo", parse_proftask_info)]

/-- Build the id→decoder table: for each required name, look up its declared
id (`ids["..."]` panics — here `none` — when the name is absent) and insert its
decode function. -/
def buildParsers (ids : List (List Nat × Nat)) : Option Table :=
  requiredParsers.foldl
    (fun acc nf =>
      match acc, lookupAssoc ids nf.1 with
      | some tbl, some i => some (insertAssoc tbl i nf.2)
      | _, _ => none)
    (some [])

/-! ### Visibility filter -/

/-- Modelled from the spec: `State::is_on_visible_nodes` lives in `state.rs`
(not under `src/`); per §4.5 it decides whether an owning node id belongs to
the set of nodes the caller wants retained. -/
def is_on_visible_nodes (visible_nodes : List Nat) (node : Nat) : Bool :=
  visible_nodes.contains node

/-- `filter_record`: the per-record visibility decision.  `pN`/`mN` are the
externally supplied "owning node of a processor/memory id" capabilities (the
spec's opaque-identifier node capability, supplied by the identifier module and
only consumed here).  `none` models the `assert!(!visible_nodes.is_empty())`
panic. -/
def filter_record (pN mN : Nat → Nat) (record : Record) (visible_nodes : List Nat)
    (node_id : Option Nat) : Option Bool :=
  if visible_nodes.isEmpty then none
  else
    some (match node_id with
      | some nodeid =>
        if !(visible_nodes.contains nodeid) then
          match record with
          | .ProcDesc _ _ => true
          | .MemDesc _ _ _ => true
          | .ProcMDesc _ _ _ _ => true
          | .TaskInfo _ _ _ proc_id _ _ _ _ _ =>
            is_on_visible_nodes visible_nodes (pN proc_id)
          | .GPUTaskInfo _ _ _ proc_id _ _ _ _ _ _ _ =>
            is_on_visible_nodes visible_nodes (pN proc_id)
          | .MetaInfo _ _ proc_id _ _ _ _ _ =>
            is_on_visible_nodes visible_nodes (pN proc_id)
          | .CopyInfo _ _ _ _ _ _ _ _ => true
          | .CopyInstInfo src dst _ _ _ _ _ _ _ =>
            is_on_visible_nodes visible_nodes (mN src) ||
              is_on_visible_nodes visible_nodes (mN dst)
          | .FillInfo _ _ _ _ _ _ _ => true
          | .FillInstInfo dst _ _ _ =>
            is_on_visible_nodes visible_nodes (mN dst)
          | .InstTimelineInfo _ _ mem_id _ _ _ _ _ =>
            is_on_visible_nodes visible_nodes (mN mem_id)
          | .PartitionInfo _ _ _ _ _ _ => true
          | _ => false
        else true
      | none => true)

/-! ### Record decoder and parse driver -/

/-- `parse_record`: read the leading `u32` tag, look it up in the dispatch
table (a missing tag is the `BTreeMap` `Index` panic, hence fatal), and run
the bound decoder at the current dimensionality. -/
def parse_record (parsers : Table) (max_dim : Int) : Parser Record :=
  pbind le_u32 (fun id =>
    match lookupAssoc parsers id with
    | some p => p max_dim
    | none => pfatal)

/-- Running-dimensionality update: a `MaxDimDesc` record sets it. -/
def upd_max_dim (max_dim : Int) : Record → Int
  | .MaxDimDesc d => d
  | _ => max_dim

/-- Running node-id update: a `MachineDesc` record sets it (unconditionally
overwriting any previous value, as the source's `node_id = Some(*d)` does). -/
def upd_node_id (node_id : Option Nat) : Record → Option Nat
  | .MachineDesc d _ => some d
  | _ => node_id

/-- The record loop of `parse`: `while let Ok(..) = parse_record(..)`.
A recoverable decode error ends the loop (the remaining input is returned);
a fatal outcome aborts everything.  State updates happen before the filter
test, exactly as in the source.  Fuel bounds the iteration count; callers pass
`input.length + 1`, which suffices because every successful `parse_record`
consumes at least the 4 tag bytes. -/
def parse_loop (pN mN : Nat → Nat) (parsers : Table) (visible_nodes : List Nat)
    (filter_input : Bool) : Nat → Int → Option Nat → List Nat → PResult (List Record)
  | 0, _, _, input => .ok input []
  | fuel + 1, max_dim, node_id, input =>
    match (parse_record parsers max_dim).run input with
    | .fatal => .fatal
    | .err => .ok input []
    | .ok input1 record =>
      match (if filter_input then
               filter_record pN mN record visible_nodes (upd_node_id node_id record)
             else some true) with
      | none => .fatal
      | some keep =>
        match parse_loop pN mN parsers visible_nodes filter_input fuel
            (upd_max_dim max_dim record) (upd_node_id node_id record) input1 with
        | .fatal => .fatal
        | .err => .err
        | .ok rest records =>
          .ok rest (if keep then record :: records else records)

/-- The part of `parse` that follows the header-format lines: build the
name→id map, consume the blank line, build the dispatch table (fatal when a
required name is missing), then run the record loop. -/
def parse_rest_header (input : List Nat) : PResult Table :=
  match (pmany1 parse_record_format).run input with
  | .err => .err
  | .fatal => .fatal
  | .ok input2 record_formats =>
    let ids := record_formats.foldl (fun m rf => insertAssoc m rf.name rf.id) []
    match newline.run input2 with
    | .err => .err
    | .fatal => .fatal
    | .ok input3 _ =>
      match buildParsers ids with
      | none => .fatal
      | some parsers => .ok input3 parsers

/-- Everything `parse` does after the version assertion has passed. -/
def parse_after_version (pN mN : Nat → Nat) (visible_nodes : List Nat)
    (filter_input : Bool) (input : List Nat) : PResult (List Record) :=
  match parse_rest_header input with
  | .err => .err
  | .fatal => .fatal
  | .ok body parsers =>
    parse_loop pN mN parsers visible_nodes filter_input (body.length + 1) (-1) none body

/-- `parse`: header line, version assertion (`assert_eq!(version, (1, 0))`
panics — fatal — on any other version), header formats and registry, then the
record loop threading the running dimensionality and node id. -/
def parse (pN mN : Nat → Nat) (input : List Nat) (visible_nodes : List Nat)
    (filter_input : Bool) : PResult (List Record) :=
  match parse_filetype.run input with
  | .err => .err
  | .fatal => .fatal
  | .ok input1 version =>
    if version = (1, 0) then parse_after_version pN mN visible_nodes filter_input input1
    else .fatal

/-- The header-and-registry phase of `parse`, as one function (used to state
claims that quantify over the binary body separately from the header). -/
def parse_header (input : List Nat) : PResult Table :=
  match parse_filetype.run input with
  | .err => .err
  | .fatal => .fatal
  | .ok input1 version =>
    if version = (1, 0) then parse_rest_header input1 else .fatal

/-- `deserialize` on an already-decompressed byte list (opening and gunzipping
the file is the out-of-scope container layer): run `parse`, `.unwrap()` the
result and `assert_eq!(rest.len(), 0)` — both panics, hence `none` — and
return the record sequence. -/
def deserialize (pN mN : Nat → Nat) (input : List Nat) (visible_nodes : List Nat)
    (filter_input : Bool) : Option (List Record) :=
  match parse pN mN input visible_nodes filter_input with
  | .ok rest records => if rest.isEmpty then some records else none
  | .err => none
  | .fatal => none

end LegionProf

namespace LegionProf

/-! ### Little-endian decode lemmas -/

/-- The little-endian value of a byte list. -/
def leVal (bs : List Nat) : Nat := bs.foldr (fun b acc => b + 256 * acc) 0

theorem leVal_nil : leVal [] = 0 := rfl

theorem leVal_cons (b : Nat) (bs : List Nat) : leVal (b :: bs) = b + 256 * leVal bs := rfl

theorem run_le_u8_nil : le_u8.run [] = .err := rfl

theorem run_le_u8_cons (b : Nat) (t : List Nat) : le_u8.run (b :: t) = .ok t b := rfl

/-- `le_bytes n` on `n` leading bytes yields their little-endian value and
leaves exactly the rest. -/
theorem le_bytes_append (n : Nat) : ∀ (bs rest : List Nat), bs.length = n →
    (le_bytes n).run (bs ++ rest) = .ok rest (leVal bs) := by
  induction n with
  | zero =>
    intro bs rest h
    have hb : bs = [] := List.eq_nil_of_length_eq_zero h
    subst hb
    rfl
  | succ n ih =>
    intro bs rest h
    cases bs with
    | nil => exact absurd h (by simp)
    | cons b bs1 =>
      have h1 : bs1.length = n := by simpa using h
      simp only [le_bytes, List.cons_append]
      rw [run_pbind_ok (run_le_u8_cons b (bs1 ++ rest))]
      rw [run_pbind_ok (ih bs1 rest h1)]
      rfl

/-- `le_bytes n` errs on input shorter than `n` bytes. -/
theorem le_bytes_short (n : Nat) : ∀ (i : List Nat), i.length < n →
    (le_bytes n).run i = .err := by
  induction n with
  | zero =>
    intro i h
    exact absurd h (Nat.not_lt_zero _)
  | succ n ih =>
    intro i h
    cases i with
    | nil => rfl
    | cons b t =>
      have h1 : t.length < n := by simpa using h
      simp only [le_bytes]
      rw [run_pbind_ok (run_le_u8_cons b t)]
      rw [run_pbind_err (ih t h1)]

/-- A successful `le_bytes n` run consumes exactly `n` bytes. -/
theorem le_bytes_ok_length (n : Nat) : ∀ (i r : List Nat) (v : Nat),
    (le_bytes n).run i = .ok r v → r.length + n = i.length := by
  induction n with
  | zero =>
    intro i r v h
    injection h with h1 h2
    subst h1
    rfl
  | succ n ih =>
    intro i r v h
    cases i with
    | nil => exact PResult.noConfusion h
    | cons b t =>
      simp only [le_bytes] at h
      rw [run_pbind_ok (run_le_u8_cons b t)] at h
      cases hrec : (le_bytes n).run t with
      | ok r1 v1 =>
        rw [run_pbind_ok hrec] at h
        injection h with h1 h2
        have hlen := ih t r1 v1 hrec
        have h4 : r1.length = r.length := by rw [h1]
        have h5 : (b :: t).length = t.length + 1 := rfl
        omega
      | err =>
        rw [run_pbind_err hrec] at h
        exact PResult.noConfusion h
      | fatal =>
        rw [run_pbind_fatal hrec] at h
        exact PResult.noConfusion h

/-- A successful `parse_record` consumes at least the 4 tag bytes, so the
remaining input strictly shrinks: the record loop's fuel never runs out. -/
theorem parse_record_consumes (parsers : Table) (max_dim : Int)
    (i r : List Nat) (a : Record)
    (h : (parse_record parsers max_dim).run i = .ok r a) : r.length < i.length := by
  unfold parse_record at h
  cases h32 : le_u32.run i with
  | ok r1 id =>
    rw [run_pbind_ok h32] at h
    have hlen : r1.length + 4 = i.length := le_bytes_ok_length 4 i r1 id h32
    cases hlk : lookupAssoc parsers id with
    | some p =>
      rw [hlk] at h
      have := (p max_dim).mono _ _ _ h
      omega
    | none =>
      rw [hlk] at h
      exact PResult.noConfusion h
  | err =>
    rw [run_pbind_err h32] at h
    exact PResult.noConfusion h
  | fatal =>
    rw [run_pbind_fatal h32] at h
    exact PResult.noConfusion h

/-- `parse_record` on the empty input is a recoverable error (clean end). -/
theorem parse_record_nil (parsers : Table) (max_dim : Int) :
    (parse_record parsers max_dim).run [] = .err := rfl

/-- `parse_record` on fewer than 4 bytes is a recoverable error. -/
theorem parse_record_short (parsers : Table) (max_dim : Int) (i : List Nat)
    (h : i.length < 4) : (parse_record parsers max_dim).run i = .err := by
  unfold parse_record
  exact run_pbind_err (le_bytes_short 4 i h)

/-! ### takeWhile / dropWhile / tag lemmas -/

theorem takeWhile_append_cons (f : Nat → Bool) :
    ∀ (s : List Nat) (c : Nat) (t : List Nat), (∀ b ∈ s, f b = true) → f c = false →
      (s ++ c :: t).takeWhile f = s ∧ (s ++ c :: t).dropWhile f = c :: t := by
  intro s
  induction s with
  | nil =>
    intro c t _ hc
    constructor
    · simp [List.takeWhile_cons, hc]
    · simp [List.dropWhile_cons, hc]
  | cons b s1 ih =>
    intro c t hs hc
    have hb : f b = true := hs b (List.mem_cons_self b s1)
    have hs1 : ∀ x ∈ s1, f x = true := fun x hx => hs x (List.mem_cons_of_mem b hx)
    have := ih c t hs1 hc
    constructor
    · simp [List.takeWhile_cons, hb, this.1]
    · simp [List.dropWhile_cons, hb, this.2]

theorem mem_takeWhile_pred (f : Nat → Bool) :
    ∀ (l : List Nat) (x : Nat), x ∈ l.takeWhile f → f x = true := by
  intro l
  induction l with
  | nil =>
    intro x hx
    exact absurd hx (List.not_mem_nil x)
  | cons b t ih =>
    intro x hx
    by_cases hb : f b
    · rw [List.takeWhile_cons, if_pos hb] at hx
      cases hx with
      | head => exact hb
      | tail _ h2 => exact ih x h2
    · rw [List.takeWhile_cons, if_neg hb] at hx
      exact absurd hx (List.not_mem_nil x)

theorem dropWhile_head_false (f : Nat → Bool) :
    ∀ (l : List Nat) (c : Nat) (t : List Nat), l.dropWhile f = c :: t → f c = false := by
  intro l
  induction l with
  | nil =>
    intro c t h
    exact absurd h (by simp)
  | cons b l1 ih =>
    intro c t h
    by_cases hb : f b
    · rw [List.dropWhile_cons, if_pos hb] at h
      exact ih c t h
    · rw [List.dropWhile_cons, if_neg hb] at h
      injection h with h1 h2
      subst h1
      exact Bool.not_eq_true _ ▸ (by simpa using hb)

theorem ptag_run_append (s rest : List Nat) : (ptag s).run (s ++ rest) = .ok rest () := by
  have hp : s.isPrefixOf (s ++ rest) = true := by
    rw [List.isPrefixOf_iff_prefix]
    exact List.prefix_append s rest
  simp only [ptag, hp, if_true, List.drop_left]

end LegionProf

namespace LegionProf

/-! ### Extension: a successful run is unaffected by appending further input

All binary record decoders have this property (their consumption is determined
by the consumed prefix); the text-header primitives `take_while1`/`take_till`
do not in general (they may run to end of input), which is why this is a
standalone predicate rather than a field of `Parser`. -/

/-- A parser is extension-closed when appending extra bytes after a successful
run leaves the parse untouched and merely lengthens the remaining input. -/
def Ext {α : Type} (p : Parser α) : Prop :=
  ∀ i r a j, p.run i = .ok r a → p.run (i ++ j) = .ok (r ++ j) a

theorem run_pfatal {α : Type} (i : List Nat) : (pfatal (α := α)).run i = .fatal := rfl

theorem run_perr {α : Type} (i : List Nat) : (perr (α := α)).run i = .err := rfl

theorem ext_ppure {α : Type} (a : α) : Ext (ppure a) := by
  intro i r b j h
  injection h with h1 h2
  subst h1
  subst h2
  rfl

theorem ext_pfatal {α : Type} : Ext (pfatal (α := α)) := by
  intro i r a j h
  exact PResult.noConfusion h

theorem ext_pbind {α β : Type} {p : Parser α} {f : α → Parser β}
    (hp : Ext p) (hf : ∀ a, Ext (f a)) : Ext (pbind p f) := by
  intro i r b j h
  cases hpi : p.run i with
  | ok r1 a =>
    rw [run_pbind_ok hpi] at h
    rw [run_pbind_ok (hp i r1 a j hpi)]
    exact hf a r1 r b j h
  | err =>
    rw [run_pbind_err hpi] at h
    exact PResult.noConfusion h
  | fatal =>
    rw [run_pbind_fatal hpi] at h
    exact PResult.noConfusion h

theorem ext_le_u8 : Ext le_u8 := by
  intro i r a j h
  cases i with
  | nil => exact PResult.noConfusion h
  | cons b t =>
    injection h with h1 h2
    subst h1
    subst h2
    rfl

theorem ext_le_bytes (n : Nat) : Ext (le_bytes n) := by
  induction n with
  | zero => exact ext_ppure 0
  | succ n ih =>
    exact ext_pbind ext_le_u8 (fun b => ext_pbind ih (fun v => ext_ppure _))

theorem ext_le_u32 : Ext le_u32 := ext_le_bytes 4

theorem ext_le_u64 : Ext le_u64 := ext_le_bytes 8

theorem ext_le_i32 : Ext le_i32 := ext_pbind (ext_le_bytes 4) (fun _ => ext_ppure _)

theorem ext_le_i64 : Ext le_i64 := ext_pbind (ext_le_bytes 8) (fun _ => ext_ppure _)

theorem ext_parse_bool : Ext parse_bool := ext_pbind ext_le_u8 (fun _ => ext_ppure _)

theorem ext_pcount {α : Type} (p : Parser α) (hp : Ext p) : ∀ n, Ext (pcount n p) := by
  intro n
  induction n with
  | zero => exact ext_ppure []
  | succ n ih =>
    exact ext_pbind hp (fun a => ext_pbind ih (fun as => ext_ppure _))

theorem ext_parse_array (max_dim : Int) : Ext (parse_array max_dim) := by
  unfold parse_array
  by_cases hd : max_dim > -1
  · rw [if_pos hd]
    exact ext_pcount le_u64 ext_le_u64 _
  · rw [if_neg hd]
    exact ext_pfatal

theorem ext_parse_point (max_dim : Int) : Ext (parse_point max_dim) := by
  unfold parse_point
  by_cases hd : max_dim > -1
  · rw [if_pos hd]
    exact ext_pcount le_u64 ext_le_u64 _
  · rw [if_neg hd]
    exact ext_pfatal

/-- The value/remainder split of `parse_string` on input containing a NUL at
the end of a valid-UTF-8 prefix. -/
theorem parse_string_split (s t : List Nat) (h0 : ∀ b ∈ s, b ≠ 0) :
    parse_string.run (s ++ 0 :: t) =
      if (utf8Chars s).isSome then .ok t s else .err := by
  have hg : ∀ b ∈ s, (fun b => !(is_nul b)) b = true := by
    intro b hb
    have := h0 b hb
    simp [is_nul, this]
  have hgc : (fun b => !(is_nul b)) 0 = false := by simp [is_nul]
  have htw := takeWhile_append_cons (fun b => !(is_nul b)) s 0 t hg hgc
  have hhead : (pmap_res_utf8 (take_till is_nul)).run (s ++ 0 :: t) =
      if (utf8Chars s).isSome then .ok (0 :: t) s else .err := by
    simp only [pmap_res_utf8, take_till, htw.1, htw.2]
  unfold parse_string
  by_cases hv : (utf8Chars s).isSome
  · rw [if_pos hv] at hhead
    rw [run_pbind_ok hhead, if_pos hv]
    rw [run_pbind_ok (run_le_u8_cons 0 t)]
    simp [is_nul, run_ppure]
  · rw [if_neg hv] at hhead
    rw [run_pbind_err hhead, if_neg hv]

/-- A successful `parse_string` run pins down the input's shape: the value,
a NUL terminator, then the remaining input. -/
theorem parse_string_ok_shape (i r a : List Nat) (h : parse_string.run i = .ok r a) :
    i = a ++ 0 :: r ∧ (∀ b ∈ a, b ≠ 0) ∧ (utf8Chars a).isSome = true := by
  have hhead : (pmap_res_utf8 (take_till is_nul)).run i =
      if (utf8Chars (i.takeWhile (fun b => !(is_nul b)))).isSome then
        .ok (i.dropWhile (fun b => !(is_nul b))) (i.takeWhile (fun b => !(is_nul b)))
      else .err := rfl
  unfold parse_string at h
  by_cases hv : (utf8Chars (i.takeWhile (fun b => !(is_nul b)))).isSome
  · rw [if_pos hv] at hhead
    rw [run_pbind_ok hhead] at h
    cases hd : i.dropWhile (fun b => !(is_nul b)) with
    | nil =>
      rw [hd] at h
      rw [run_pbind_err run_le_u8_nil] at h
      exact PResult.noConfusion h
    | cons c d2 =>
      rw [hd] at h
      rw [run_pbind_ok (run_le_u8_cons c d2)] at h
      have hc : (fun b => !(is_nul b)) c = false := dropWhile_head_false _ i c d2 hd
      have hc0 : c = 0 := by
        by_cases h00 : c = 0
        · exact h00
        · exfalso
          simp [is_nul, h00] at hc
      have hcn : is_nul c = true := by simp [is_nul, hc0]
      rw [if_pos hcn] at h
      rw [run_ppure] at h
      injection h with h1 h2
      subst h1
      subst h2
      refine ⟨?_, ?_, hv⟩
      · conv_lhs => rw [← List.takeWhile_append_dropWhile (fun b => !(is_nul b)) i]
        rw [hd, hc0]
      · intro b hb
        have := mem_takeWhile_pred _ i b hb
        simp only [is_nul, Bool.not_eq_eq_eq_not, Bool.not_true, beq_eq_false_iff_ne] at this
        exact this
  · rw [if_neg hv] at hhead
    rw [run_pbind_err hhead] at h
    exact PResult.noConfusion h

theorem ext_parse_string : Ext parse_string := by
  intro i r a j h
  obtain ⟨hi, h0, hv⟩ := parse_string_ok_shape i r a h
  subst hi
  have := parse_string_split a (r ++ j) h0
  rw [if_pos hv] at this
  calc parse_string.run ((a ++ 0 :: r) ++ j)
      = parse_string.run (a ++ 0 :: (r ++ j)) := by
        rw [List.append_assoc, List.cons_append]
    _ = .ok (r ++ j) a := this

end LegionProf

namespace LegionProf

/-! ### Extension lemmas for every record decoder -/

theorem ext_parse_mapper_call_desc : ∀ d, Ext (parse_mapper_call_desc d) := by
  intro d
  unfold parse_mapper_call_desc
  repeat
    first
    | apply ext_parse_string
    | apply ext_parse_bool
    | apply ext_parse_array
    | apply ext_parse_point
    | apply ext_le_u64
    | apply ext_le_u32
    | apply ext_le_i64
    | apply ext_le_i32
    | apply ext_ppure
    | apply ext_pbind
    | intro x

theorem ext_parse_runtime_call_desc : ∀ d, Ext (parse_runtime_call_desc d) := by
  intro d
  unfold parse_runtime_call_desc
  repeat
    first
    | apply ext_parse_string
    | apply ext_parse_bool
    | apply ext_parse_array
    | apply ext_parse_point
    | apply ext_le_u64
    | apply ext_le_u32
    | apply ext_le_i64
    | apply ext_le_i32
    | apply ext_ppure
    | apply ext_pbind
    | intro x

theorem ext_parse_meta_desc : ∀ d, Ext (parse_meta_desc d) := by
  intro d
  unfold parse_meta_desc
  repeat
    first
    | apply ext_parse_string
    | apply ext_parse_bool
    | apply ext_parse_array
    | apply ext_parse_point
    | apply ext_le_u64
    | apply ext_le_u32
    | apply ext_le_i64
    | apply ext_le_i32
    | apply ext_ppure
    | apply ext_pbind
    | intro x

theorem ext_parse_op_desc : ∀ d, Ext (parse_op_desc d) := by
  intro d
  unfold parse_op_desc
  repeat
    first
    | apply ext_parse_string
    | apply ext_parse_bool
    | apply ext_parse_array
    | apply ext_parse_point
    | apply ext_le_u64
    | apply ext_le_u32
    | apply ext_le_i64
    | apply ext_le_i32
    | apply ext_ppure
    | apply ext_pbind
    | intro x

theorem ext_parse_max_dim_desc : ∀ d, Ext (parse_max_dim_desc d) := by
  intro d
  unfold parse_max_dim_desc
  repeat
    first
    | apply ext_parse_string
    | apply ext_parse_bool
    | apply ext_parse_array
    | apply ext_parse_point
    | apply ext_le_u64
    | apply ext_le_u32
    | apply ext_le_i64
    | apply ext_le_i32
    | apply ext_ppure
    | apply ext_pbind
    | intro x

theorem ext_parse_machine_desc : ∀ d, Ext (parse_machine_desc d) := by
  intro d
  unfold parse_machine_desc
  repeat
    first
    | apply ext_parse_string
    | apply ext_parse_bool
    | apply ext_parse_array
    | apply ext_parse_point
    | apply ext_le_u64
    | apply ext_le_u32
    | apply ext_le_i64
    | apply ext_le_i32
    | apply ext_ppure
    | apply ext_pbind
    | intro x

theorem ext_parse_zero_time : ∀ d, Ext (parse_zero_time d) := by
  intro d
  unfold parse_zero_time
  repeat
    first
    | apply ext_parse_string
    | apply ext_parse_bool
    | apply ext_parse_array
    | apply ext_parse_point
    | apply ext_le_u64
    | apply ext_le_u32
    | apply ext_le_i64
    | apply ext_le_i32
    | apply ext_ppure
    | apply ext_pbind
    | intro x

theorem ext_parse_proc_desc : ∀ d, Ext (parse_proc_desc d) := by
  intro d
  unfold parse_proc_desc
  repeat
    first
    | apply ext_parse_string
    | apply ext_parse_bool
    | apply ext_parse_array
    | apply ext_parse_point
    | apply ext_le_u64
    | apply ext_le_u32
    | apply ext_le_i64
    | apply ext_le_i32
    | apply ext_ppure
    | apply ext_pbind
    | intro x

theorem ext_parse_mem_desc : ∀ d, Ext (parse_mem_desc d) := by
  intro d
  unfold parse_mem_desc
  repeat
    first
    | apply ext_parse_string
    | apply ext_parse_bool
    | apply ext_parse_array
    | apply ext_parse_point
    | apply ext_le_u64
    | apply ext_le_u32
    | apply ext_le_i64
    | apply ext_le_i32
    | apply ext_ppure
    | apply ext_pbind
    | intro x

theorem ext_parse_mem_proc_affinity_desc : ∀ d, Ext (parse_mem_proc_affinity_desc d) := by
  intro d
  unfold parse_mem_proc_affinity_desc
  repeat
    first
    | apply ext_parse_string
    | apply ext_parse_bool
    | apply ext_parse_array
    | apply ext_parse_point
    | apply ext_le_u64
    | apply ext_le_u32
    | apply ext_le_i64
    | apply ext_le_i32
    | apply ext_ppure
    | apply ext_pbind
    | intro x

theorem ext_parse_index_space_point_desc : ∀ d, Ext (parse_index_space_point_desc d) := by
  intro d
  unfold parse_index_space_point_desc
  repeat
    first
    | apply ext_parse_string
    | apply ext_parse_bool
    | apply ext_parse_array
    | apply ext_parse_point
    | apply ext_le_u64
    | apply ext_le_u32
    | apply ext_le_i64
    | apply ext_le_i32
    | apply ext_ppure
    | apply ext_pbind
    | intro x

theorem ext_parse_index_space_rect_desc : ∀ d, Ext (parse_index_space_rect_desc d) := by
  intro d
  unfold parse_index_space_rect_desc
  repeat
    first
    | apply ext_parse_string
    | apply ext_parse_bool
    | apply ext_parse_array
    | apply ext_parse_point
    | apply ext_le_u64
    | apply ext_le_u32
    | apply ext_le_i64
    | apply ext_le_i32
    | apply ext_ppure
    | apply ext_pbind
    | intro x

theorem ext_parse_index_space_empty_desc : ∀ d, Ext (parse_index_space_empty_desc d) := by
  intro d
  unfold parse_index_space_empty_desc
  repeat
    first
    | apply ext_parse_string
    | apply ext_parse_bool
    | apply ext_parse_array
    | apply ext_parse_point
    | apply ext_le_u64
    | apply ext_le_u32
    | apply ext_le_i64
    | apply ext_le_i32
    | apply ext_ppure
    | apply ext_pbind
    | intro x

theorem ext_parse_field_desc : ∀ d, Ext (parse_field_desc d) := by
  intro d
  unfold parse_field_desc
  repeat
    first
    | apply ext_parse_string
    | apply ext_parse_bool
    | apply ext_parse_array
    | apply ext_parse_point
    | apply ext_le_u64
    | apply ext_le_u32
    | apply ext_le_i64
    | apply ext_le_i32
    | apply ext_ppure
    | apply ext_pbind
    | intro x

theorem ext_parse_field_space_desc : ∀ d, Ext (parse_field_space_desc d) := by
  intro d
  unfold parse_field_space_desc
  repeat
    first
    | apply ext_parse_string
    | apply ext_parse_bool
    | apply ext_parse_array
    | apply ext_parse_point
    | apply ext_le_u64
    | apply ext_le_u32
    | apply ext_le_i64
    | apply ext_le_i32
    | apply ext_ppure
    | apply ext_pbind
    | intro x

theorem ext_parse_part_desc : ∀ d, Ext (parse_part_desc d) := by
  intro d
  unfold parse_part_desc
  repeat
    first
    | apply ext_parse_string
    | apply ext_parse_bool
    | apply ext_parse_array
    | apply ext_parse_point
    | apply ext_le_u64
    | apply ext_le_u32
    | apply ext_le_i64
    | apply ext_le_i32
    | apply ext_ppure
    | apply ext_pbind
    | intro x

theorem ext_parse_index_space_desc : ∀ d, Ext (parse_index_space_desc d) := by
  intro d
  unfold parse_index_space_desc
  repeat
    first
    | apply ext_parse_string
    | apply ext_parse_bool
    | apply ext_parse_array
    | apply ext_parse_point
    | apply ext_le_u64
    | apply ext_le_u32
    | apply ext_le_i64
    | apply ext_le_i32
    | apply ext_ppure
    | apply ext_pbind
    | intro x

theorem ext_parse_index_subspace_desc : ∀ d, Ext (parse_index_subspace_desc d) := by
  intro d
  unfold parse_index_subspace_desc
  repeat
    first
    | apply ext_parse_string
    | apply ext_parse_bool
    | apply ext_parse_array
    | apply ext_parse_point
    | apply ext_le_u64
    | apply ext_le_u32
    | apply ext_le_i64
    | apply ext_le_i32
    | apply ext_ppure
    | apply ext_pbind
    | intro x

theorem ext_parse_index_partition_desc : ∀ d, Ext (parse_index_partition_desc d) := by
  intro d
  unfold parse_index_partition_desc
  repeat
    first
    | apply ext_parse_string
    | apply ext_parse_bool
    | apply ext_parse_array
    | apply ext_parse_point
    | apply ext_le_u64
    | apply ext_le_u32
    | apply ext_le_i64
    | apply ext_le_i32
    | apply ext_ppure
    | apply ext_pbind
    | intro x

theorem ext_parse_index_space_size_desc : ∀ d, Ext (parse_index_space_size_desc d) := by
  intro d
  unfold parse_index_space_size_desc
  repeat
    first
    | apply ext_parse_string
    | apply ext_parse_bool
    | apply ext_parse_array
    | apply ext_parse_point
    | apply ext_le_u64
    | apply ext_le_u32
    | apply ext_le_i64
    | apply ext_le_i32
    | apply ext_ppure
    | apply ext_pbind
    | intro x

theorem ext_parse_logical_region_desc : ∀ d, Ext (parse_logical_region_desc d) := by
  intro d
  unfold parse_logical_region_desc
  repeat
    first
    | apply ext_parse_string
    | apply ext_parse_bool
    | apply ext_parse_array
    | apply ext_parse_point
    | apply ext_le_u64
    | apply ext_le_u32
    | apply ext_le_i64
    | apply ext_le_i32
    | apply ext_ppure
    | apply ext_pbind
    | intro x

theorem ext_parse_physical_inst_region_desc : ∀ d, Ext (parse_physical_inst_region_desc d) := by
  intro d
  unfold parse_physical_inst_region_desc
  repeat
    first
    | apply ext_parse_string
    | apply ext_parse_bool
    | apply ext_parse_array
    | apply ext_parse_point
    | apply ext_le_u64
    | apply ext_le_u32
    | apply ext_le_i64
    | apply ext_le_i32
    | apply ext_ppure
    | apply ext_pbind
    | intro x

theorem ext_parse_physical_inst_layout_desc : ∀ d, Ext (parse_physical_inst_layout_desc d) := by
  intro d
  unfold parse_physical_inst_layout_desc
  repeat
    first
    | apply ext_parse_string
    | apply ext_parse_bool
    | apply ext_parse_array
    | apply ext_parse_point
    | apply ext_le_u64
    | apply ext_le_u32
    | apply ext_le_i64
    | apply ext_le_i32
    | apply ext_ppure
    | apply ext_pbind
    | intro x

theorem ext_parse_physical_inst_layout_dim_desc : ∀ d, Ext (parse_physical_inst_layout_dim_desc d) := by
  intro d
  unfold parse_physical_inst_layout_dim_desc
  repeat
    first
    | apply ext_parse_string
    | apply ext_parse_bool
    | apply ext_parse_array
    | apply ext_parse_point
    | apply ext_le_u64
    | apply ext_le_u32
    | apply ext_le_i64
    | apply ext_le_i32
    | apply ext_ppure
    | apply ext_pbind
    | intro x

theorem ext_parse_physical_inst_usage : ∀ d, Ext (parse_physical_inst_usage d) := by
  intro d
  unfold parse_physical_inst_usage
  repeat
    first
    | apply ext_parse_string
    | apply ext_parse_bool
    | apply ext_parse_array
    | apply ext_parse_point
    | apply ext_le_u64
    | apply ext_le_u32
    | apply ext_le_i64
    | apply ext_le_i32
    | apply ext_ppure
    | apply ext_pbind
    | intro x

theorem ext_parse_task_kind : ∀ d, Ext (parse_task_kind d) := by
  intro d
  unfold parse_task_kind
  repeat
    first
    | apply ext_parse_string
    | apply ext_parse_bool
    | apply ext_parse_array
    | apply ext_parse_point
    | apply ext_le_u64
    | apply ext_le_u32
    | apply ext_le_i64
    | apply ext_le_i32
    | apply ext_ppure
    | apply ext_pbind
    | intro x

theorem ext_parse_task_variant : ∀ d, Ext (parse_task_variant d) := by
  intro d
  unfold parse_task_variant
  repeat
    first
    | apply ext_parse_string
    | apply ext_parse_bool
    | apply ext_parse_array
    | apply ext_parse_point
    | apply ext_le_u64
    | apply ext_le_u32
    | apply ext_le_i64
    | apply ext_le_i32
    | apply ext_ppure
    | apply ext_pbind
    | intro x

theorem ext_parse_operation : ∀ d, Ext (parse_operation d) := by
  intro d
  unfold parse_operation
  repeat
    first
    | apply ext_parse_string
    | apply ext_parse_bool
    | apply ext_parse_array
    | apply ext_parse_point
    | apply ext_le_u64
    | apply ext_le_u32
    | apply ext_le_i64
    | apply ext_le_i32
    | apply ext_ppure
    | apply ext_pbind
    | intro x

theorem ext_parse_multi_task : ∀ d, Ext (parse_multi_task d) := by
  intro d
  unfold parse_multi_task
  repeat
    first
    | apply ext_parse_string
    | apply ext_parse_bool
    | apply ext_parse_array
    | apply ext_parse_point
    | apply ext_le_u64
    | apply ext_le_u32
    | apply ext_le_i64
    | apply ext_le_i32
    | apply ext_ppure
    | apply ext_pbind
    | intro x

theorem ext_parse_slice_owner : ∀ d, Ext (parse_slice_owner d) := by
  intro d
  unfold parse_slice_owner
  repeat
    first
    | apply ext_parse_string
    | apply ext_parse_bool
    | apply ext_parse_array
    | apply ext_parse_point
    | apply ext_le_u64
    | apply ext_le_u32
    | apply ext_le_i64
    | apply ext_le_i32
    | apply ext_ppure
    | apply ext_pbind
    | intro x

theorem ext_parse_task_wait_info : ∀ d, Ext (parse_task_wait_info d) := by
  intro d
  unfold parse_task_wait_info
  repeat
    first
    | apply ext_parse_string
    | apply ext_parse_bool
    | apply ext_parse_array
    | apply ext_parse_point
    | apply ext_le_u64
    | apply ext_le_u32
    | apply ext_le_i64
    | apply ext_le_i32
    | apply ext_ppure
    | apply ext_pbind
    | intro x

theorem ext_parse_meta_wait_info : ∀ d, Ext (parse_meta_wait_info d) := by
  intro d
  unfold parse_meta_wait_info
  repeat
    first
    | apply ext_parse_string
    | apply ext_parse_bool
    | apply ext_parse_array
    | apply ext_parse_point
    | apply ext_le_u64
    | apply ext_le_u32
    | apply ext_le_i64
    | apply ext_le_i32
    | apply ext_ppure
    | apply ext_pbind
    | intro x

theorem ext_parse_task_info : ∀ d, Ext (parse_task_info d) := by
  intro d
  unfold parse_task_info
  repeat
    first
    | apply ext_parse_string
    | apply ext_parse_bool
    | apply ext_parse_array
    | apply ext_parse_point
    | apply ext_le_u64
    | apply ext_le_u32
    | apply ext_le_i64
    | apply ext_le_i32
    | apply ext_ppure
    | apply ext_pbind
    | intro x

theorem ext_parse_gpu_task_info : ∀ d, Ext (parse_gpu_task_info d) := by
  intro d
  unfold parse_gpu_task_info
  repeat
    first
    | apply ext_parse_string
    | apply ext_parse_bool
    | apply ext_parse_array
    | apply ext_parse_point
    | apply ext_le_u64
    | apply ext_le_u32
    | apply ext_le_i64
    | apply ext_le_i32
    | apply ext_ppure
    | apply ext_pbind
    | intro x

theorem ext_parse_meta_info : ∀ d, Ext (parse_meta_info d) := by
  intro d
  unfold parse_meta_info
  repeat
    first
    | apply ext_parse_string
    | apply ext_parse_bool
    | apply ext_parse_array
    | apply ext_parse_point
    | apply ext_le_u64
    | apply ext_le_u32
    | apply ext_le_i64
    | apply ext_le_i32
    | apply ext_ppure
    | apply ext_pbind
    | intro x

theorem ext_parse_copy_info : ∀ d, Ext (parse_copy_info d) := by
  intro d
  unfold parse_copy_info
  repeat
    first
    | apply ext_parse_string
    | apply ext_parse_bool
    | apply ext_parse_array
    | apply ext_parse_point
    | apply ext_le_u64
    | apply ext_le_u32
    | apply ext_le_i64
    | apply ext_le_i32
    | apply ext_ppure
    | apply ext_pbind
    | intro x

theorem ext_parse_copy_inst_info : ∀ d, Ext (parse_copy_inst_info d) := by
  intro d
  unfold parse_copy_inst_info
  repeat
    first
    | apply ext_parse_string
    | apply ext_parse_bool
    | apply ext_parse_array
    | apply ext_parse_point
    | apply ext_le_u64
    | apply ext_le_u32
    | apply ext_le_i64
    | apply ext_le_i32
    | apply ext_ppure
    | apply ext_pbind
    | intro x

theorem ext_parse_fill_info : ∀ d, Ext (parse_fill_info d) := by
  intro d
  unfold parse_fill_info
  repeat
    first
    | apply ext_parse_string
    | apply ext_parse_bool
    | apply ext_parse_array
    | apply ext_parse_point
    | apply ext_le_u64
    | apply ext_le_u32
    | apply ext_le_i64
    | apply ext_le_i32
    | apply ext_ppure
    | apply ext_pbind
    | intro x

theorem ext_parse_fill_inst_info : ∀ d, Ext (parse_fill_inst_info d) := by
  intro d
  unfold parse_fill_inst_info
  repeat
    first
    | apply ext_parse_string
    | apply ext_parse_bool
    | apply ext_parse_array
    | apply ext_parse_point
    | apply ext_le_u64
    | apply ext_le_u32
    | apply ext_le_i64
    | apply ext_le_i32
    | apply ext_ppure
    | apply ext_pbind
    | intro x

theorem ext_parse_inst_timeline : ∀ d, Ext (parse_inst_timeline d) := by
  intro d
  unfold parse_inst_timeline
  repeat
    first
    | apply ext_parse_string
    | apply ext_parse_bool
    | apply ext_parse_array
    | apply ext_parse_point
    | apply ext_le_u64
    | apply ext_le_u32
    | apply ext_le_i64
    | apply ext_le_i32
    | apply ext_ppure
    | apply ext_pbind
    | intro x

theorem ext_parse_partition_info : ∀ d, Ext (parse_partition_info d) := by
  intro d
  unfold parse_partition_info
  repeat
    first
    | apply ext_parse_string
    | apply ext_parse_bool
    | apply ext_parse_array
    | apply ext_parse_point
    | apply ext_le_u64
    | apply ext_le_u32
    | apply ext_le_i64
    | apply ext_le_i32
    | apply ext_ppure
    | apply ext_pbind
    | intro x

theorem ext_parse_mapper_call_info : ∀ d, Ext (parse_mapper_call_info d) := by
  intro d
  unfold parse_mapper_call_info
  repeat
    first
    | apply ext_parse_string
    | apply ext_parse_bool
    | apply ext_parse_array
    | apply ext_parse_point
    | apply ext_le_u64
    | apply ext_le_u32
    | apply ext_le_i64
    | apply ext_le_i32
    | apply ext_ppure
    | apply ext_pbind
    | intro x

theorem ext_parse_runtime_call_info : ∀ d, Ext (parse_runtime_call_info d) := by
  intro d
  unfold parse_runtime_call_info
  repeat
    first
    | apply ext_parse_string
    | apply ext_parse_bool
    | apply ext_parse_array
    | apply ext_parse_point
    | apply ext_le_u64
    | apply ext_le_u32
    | apply ext_le_i64
    | apply ext_le_i32
    | apply ext_ppure
    | apply ext_pbind
    | intro x

theorem ext_parse_proftask_info : ∀ d, Ext (parse_proftask_info d) := by
  intro d
  unfold parse_proftask_info
  repeat
    first
    | apply ext_parse_string
    | apply ext_parse_bool
    | apply ext_parse_array
    | apply ext_parse_point
    | apply ext_le_u64
    | apply ext_le_u32
    | apply ext_le_i64
    | apply ext_le_i32
    | apply ext_ppure
    | apply ext_pbind
    | intro x

/-- Every decode function in the required-parser registry is
extension-closed. -/
theorem requiredParsers_ext : ∀ nf ∈ requiredParsers, ∀ d, Ext (nf.2 d) := by
  rw [← List.forall_iff_forall_mem]
  simp only [requiredParsers, List.Forall]
  exact ⟨ext_parse_mapper_call_desc, ext_parse_runtime_call_desc, ext_parse_meta_desc, ext_parse_op_desc, ext_parse_max_dim_desc, ext_parse_machine_desc, ext_parse_zero_time, ext_parse_proc_desc, ext_parse_mem_desc, ext_parse_mem_proc_affinity_desc, ext_parse_index_space_point_desc, ext_parse_index_space_rect_desc, ext_parse_index_space_empty_desc, ext_parse_field_desc, ext_parse_field_space_desc, ext_parse_part_desc, ext_parse_index_space_desc, ext_parse_index_subspace_desc, ext_parse_index_partition_desc, ext_parse_index_space_size_desc, ext_parse_logical_region_desc, ext_parse_physical_inst_region_desc, ext_parse_physical_inst_layout_desc, ext_parse_physical_inst_layout_dim_desc, ext_parse_physical_inst_usage, ext_parse_task_kind, ext_parse_task_variant, ext_parse_operation, ext_parse_multi_task, ext_parse_slice_owner, ext_parse_task_wait_info, ext_parse_meta_wait_info, ext_parse_task_info, ext_parse_gpu_task_info, ext_parse_meta_info, ext_parse_copy_info, ext_parse_copy_inst_info, ext_parse_fill_info, ext_parse_fill_inst_info, ext_parse_inst_timeline, ext_parse_partition_info, ext_parse_mapper_call_info, ext_parse_runtime_call_info, ext_parse_proftask_info⟩

end LegionProf

namespace LegionProf

/-! ### From the header to an extension-closed dispatch table -/

theorem mem_insertAssoc {κ ν : Type} [DecidableEq κ] :
    ∀ (m : List (κ × ν)) (k : κ) (v : ν) (kv : κ × ν),
      kv ∈ insertAssoc m k v → kv = (k, v) ∨ kv ∈ m := by
  intro m
  induction m with
  | nil =>
    intro k v kv h
    simp only [insertAssoc] at h
    cases h with
    | head => exact Or.inl rfl
    | tail _ h2 => exact absurd h2 (List.not_mem_nil kv)
  | cons hd t ih =>
    intro k v kv h
    obtain ⟨k1, v1⟩ := hd
    simp only [insertAssoc] at h
    by_cases hk : k1 = k
    · rw [if_pos hk] at h
      cases h with
      | head => exact Or.inl rfl
      | tail _ h2 => exact Or.inr (List.mem_cons_of_mem _ h2)
    · rw [if_neg hk] at h
      cases h with
      | head => exact Or.inr (List.mem_cons_self _ _)
      | tail _ h2 =>
        cases ih k v kv h2 with
        | inl h3 => exact Or.inl h3
        | inr h3 => exact Or.inr (List.mem_cons_of_mem _ h3)

theorem lookupAssoc_mem {κ ν : Type} [DecidableEq κ] :
    ∀ (m : List (κ × ν)) (k : κ) (v : ν), lookupAssoc m k = some v → (k, v) ∈ m := by
  intro m
  induction m with
  | nil =>
    intro k v h
    exact Option.noConfusion h
  | cons hd t ih =>
    intro k v h
    obtain ⟨k1, v1⟩ := hd
    simp only [lookupAssoc] at h
    by_cases hk : k1 = k
    · rw [if_pos hk] at h
      injection h with h1
      subst hk
      subst h1
      exact List.mem_cons_self _ _
    · rw [if_neg hk] at h
      exact List.mem_cons_of_mem _ (ih k v h)

theorem buildParsers_fold_ext (ids : List (List Nat × Nat)) :
    ∀ (l : List (List Nat × (Int → Parser Record))) (acc : Option Table) (tbl : Table),
      l.foldl
        (fun acc nf =>
          match acc, lookupAssoc ids nf.1 with
          | some t, some i => some (insertAssoc t i nf.2)
          | _, _ => none) acc = some tbl →
      (∀ nf ∈ l, ∀ d, Ext (nf.2 d)) →
      (∀ t0, acc = some t0 → ∀ kv ∈ t0, ∀ d, Ext (kv.2 d)) →
      ∀ kv ∈ tbl, ∀ d, Ext (kv.2 d) := by
  intro l
  induction l with
  | nil =>
    intro acc tbl hf hl hacc
    exact hacc tbl hf
  | cons nf l1 ih =>
    intro acc tbl hf hl hacc
    rw [List.foldl_cons] at hf
    refine ih _ tbl hf (fun x hx => hl x (List.mem_cons_of_mem _ hx)) ?_
    intro t0 hstep kv hkv
    cases acc with
    | none => exact Option.noConfusion hstep
    | some t =>
      cases hlk : lookupAssoc ids nf.1 with
      | none =>
        rw [hlk] at hstep
        exact Option.noConfusion hstep
      | some i =>
        rw [hlk] at hstep
        injection hstep with h1
        subst h1
        cases mem_insertAssoc t i nf.2 kv hkv with
        | inl h2 =>
          subst h2
          exact hl nf (List.mem_cons_self _ _)
        | inr h2 => exact hacc t rfl kv h2

/-- A table produced by `buildParsers` only holds required decode functions,
so all of its entries are extension-closed. -/
theorem buildParsers_ext (ids : List (List Nat × Nat)) (tbl : Table)
    (h : buildParsers ids = some tbl) : ∀ kv ∈ tbl, ∀ d, Ext (kv.2 d) := by
  refine buildParsers_fold_ext ids requiredParsers (some []) tbl h requiredParsers_ext ?_
  intro t0 h0 kv hkv
  injection h0 with h1
  subst h1
  exact absurd hkv (List.not_mem_nil kv)

theorem parse_rest_header_table (input body : List Nat) (tbl : Table)
    (h : parse_rest_header input = .ok body tbl) :
    ∃ ids, buildParsers ids = some tbl := by
  unfold parse_rest_header at h
  cases h1 : (pmany1 parse_record_format).run input with
  | ok input2 record_formats =>
    rw [h1] at h
    cases h2 : newline.run input2 with
    | ok input3 u =>
      simp only [h2] at h
      cases h3 : buildParsers
          (record_formats.foldl (fun m rf => insertAssoc m rf.name rf.id) []) with
      | some parsers =>
        rw [h3] at h
        injection h with h4 h5
        subst h5
        exact ⟨_, h3⟩
      | none =>
        rw [h3] at h
        exact PResult.noConfusion h
    | err =>
      simp only [h2] at h
      exact PResult.noConfusion h
    | fatal =>
      simp only [h2] at h
      exact PResult.noConfusion h
  | err =>
    rw [h1] at h
    exact PResult.noConfusion h
  | fatal =>
    rw [h1] at h
    exact PResult.noConfusion h

theorem parse_header_table (input body : List Nat) (tbl : Table)
    (h : parse_header input = .ok body tbl) : ∀ kv ∈ tbl, ∀ d, Ext (kv.2 d) := by
  unfold parse_header at h
  cases h1 : parse_filetype.run input with
  | ok input1 version =>
    rw [h1] at h
    have h2 : (if version = (1, 0) then parse_rest_header input1 else PResult.fatal) =
        .ok body tbl := h
    by_cases hv : version = (1, 0)
    · rw [if_pos hv] at h2
      obtain ⟨ids, hb⟩ := parse_rest_header_table input1 body tbl h2
      exact buildParsers_ext ids tbl hb
    · rw [if_neg hv] at h2
      exact PResult.noConfusion h2
  | err =>
    rw [h1] at h
    exact PResult.noConfusion h
  | fatal =>
    rw [h1] at h
    exact PResult.noConfusion h

/-- `parse_record` over an extension-closed table is extension-closed. -/
theorem ext_parse_record (tbl : Table) (max_dim : Int)
    (htbl : ∀ kv ∈ tbl, ∀ d, Ext (kv.2 d)) : Ext (parse_record tbl max_dim) := by
  intro i r a j h
  unfold parse_record at h ⊢
  cases h32 : le_u32.run i with
  | ok r1 id =>
    rw [run_pbind_ok h32] at h
    rw [run_pbind_ok (ext_le_u32 i r1 id j h32)]
    cases hlk : lookupAssoc tbl id with
    | some p =>
      rw [hlk] at h
      exact htbl (id, p) (lookupAssoc_mem tbl id p hlk) max_dim r1 r a j h
    | none =>
      rw [hlk] at h
      exact PResult.noConfusion h
  | err =>
    rw [run_pbind_err h32] at h
    exact PResult.noConfusion h
  | fatal =>
    rw [run_pbind_fatal h32] at h
    exact PResult.noConfusion h

end LegionProf

namespace LegionProf

/-! ### The record-chain relation and loop lemmas -/

/-- `Decodes tbl max_dim input records`: the byte list `input` consists of
exactly the encodings of `records`, decoded one after another by
`parse_record` while threading the running dimensionality, with nothing left
over. -/
inductive Decodes (tbl : Table) : Int → List Nat → List Record → Prop where
  | nil (max_dim : Int) : Decodes tbl max_dim [] []
  | cons (max_dim : Int) (input input1 : List Nat) (r : Record) (rs : List Record) :
      (parse_record tbl max_dim).run input = .ok input1 r →
      Decodes tbl (upd_max_dim max_dim r) input1 rs →
      Decodes tbl max_dim input (r :: rs)

/-- An unfiltered record loop over a fully decodable body returns exactly the
chain's records and consumes the whole body. -/
theorem parse_loop_of_decodes (tbl : Table) :
    ∀ (d : Int) (input : List Nat) (records : List Record),
      Decodes tbl d input records →
      ∀ (pN mN : Nat → Nat) (vis : List Nat) (nid : Option Nat) (fuel : Nat),
        input.length < fuel →
        parse_loop pN mN tbl vis false fuel d nid input = .ok [] records := by
  intro d input records hdec
  induction hdec with
  | nil d1 =>
    intro pN mN vis nid fuel hf
    cases fuel with
    | zero => exact absurd hf (Nat.lt_irrefl 0)
    | succ f =>
      simp only [parse_loop, parse_record_nil]
  | cons d1 input input1 r rs hstep hdec1 ih =>
    intro pN mN vis nid fuel hf
    have hlt := parse_record_consumes tbl d1 input input1 r hstep
    cases fuel with
    | zero => exact absurd hf (Nat.not_lt_zero _)
    | succ f =>
      have hf1 : input.length ≤ f := Nat.lt_succ_iff.mp hf
      simp only [parse_loop, hstep]
      rw [ih pN mN vis (upd_node_id nid r) f (by omega)]
      simp

/-- Appending one stray byte after a fully decodable body: the loop decodes
the same records and stops with exactly the stray byte left over. -/
theorem parse_loop_decodes_append (tbl : Table)
    (htbl : ∀ kv ∈ tbl, ∀ d, Ext (kv.2 d)) :
    ∀ (d : Int) (input : List Nat) (records : List Record),
      Decodes tbl d input records →
      ∀ (pN mN : Nat → Nat) (vis : List Nat) (nid : Option Nat) (fuel : Nat) (b : Nat),
        input.length + 1 < fuel →
        parse_loop pN mN tbl vis false fuel d nid (input ++ [b]) = .ok [b] records := by
  intro d input records hdec
  induction hdec with
  | nil d1 =>
    intro pN mN vis nid fuel b hf
    cases fuel with
    | zero => exact absurd hf (Nat.not_lt_zero _)
    | succ f =>
      have hshort : (parse_record tbl d1).run ([] ++ [b]) = .err :=
        parse_record_short tbl d1 [b] (by simp)
      simp only [parse_loop, hshort]
      simp
  | cons d1 input input1 r rs hstep hdec1 ih =>
    intro pN mN vis nid fuel b hf
    have hlt := parse_record_consumes tbl d1 input input1 r hstep
    have hstep1 : (parse_record tbl d1).run (input ++ [b]) = .ok (input1 ++ [b]) r :=
      ext_parse_record tbl d1 htbl input input1 r [b] hstep
    cases fuel with
    | zero => exact absurd hf (Nat.not_lt_zero _)
    | succ f =>
      simp only [parse_loop, hstep1]
      rw [ih pN mN vis (upd_node_id nid r) f b (by omega)]
      simp

/-- Updating the running node id either keeps it or takes it from a machine
descriptor. -/
theorem upd_node_id_cases (nid : Option Nat) (r : Record) (m : Nat)
    (h : upd_node_id nid r = some m) :
    nid = some m ∨ ∃ k, r = .MachineDesc m k := by
  cases r
  case MachineDesc d k =>
    injection h with h1
    exact Or.inr ⟨k, by rw [h1]⟩
  all_goals exact Or.inl h

/-- When the running node id is unknown or visible, the filter retains
every record. -/
theorem filter_record_visible (pN mN : Nat → Nat) (r : Record) (vis : List Nat)
    (nid : Option Nat) (hne : vis ≠ [])
    (hinv : ∀ m, nid = some m → vis.contains m = true) :
    filter_record pN mN r vis nid = some true := by
  have hE : vis.isEmpty = false := by
    cases vis with
    | nil => exact absurd rfl hne
    | cons v t => rfl
  unfold filter_record
  rw [hE]
  cases nid with
  | none => rfl
  | some m =>
    have hm : m ∈ vis := by
      have hc := hinv m rfl
      simpa using hc
    simp [hm]

/-- Lockstep lemma: when every node id the loop ever records is visible, the
filtered loop returns exactly what the unfiltered loop returns. -/
theorem parse_loop_filter_passthrough (pN mN : Nat → Nat) (tbl : Table)
    (vis : List Nat) (hne : vis ≠ []) :
    ∀ (fuel : Nat) (d : Int) (nid : Option Nat) (input rest : List Nat)
      (records : List Record),
      (∀ m, nid = some m → vis.contains m = true) →
      parse_loop pN mN tbl vis false fuel d nid input = .ok rest records →
      (∀ n k, Record.MachineDesc n k ∈ records → vis.contains n = true) →
      parse_loop pN mN tbl vis true fuel d nid input = .ok rest records := by
  intro fuel
  induction fuel with
  | zero =>
    intro d nid input rest records hinv h hmach
    injection h with h1 h2
    subst h1
    subst h2
    rfl
  | succ f ih =>
    intro d nid input rest records hinv h hmach
    cases hrec : (parse_record tbl d).run input with
    | fatal =>
      simp only [parse_loop, hrec] at h
      exact PResult.noConfusion h
    | err =>
      simp only [parse_loop, hrec] at h
      simp only [parse_loop, hrec]
      exact h
    | ok input1 r =>
      simp only [parse_loop, hrec] at h
      cases hloop : parse_loop pN mN tbl vis false f
          (upd_max_dim d r) (upd_node_id nid r) input1 with
      | fatal =>
        rw [hloop] at h
        simp at h
      | err =>
        rw [hloop] at h
        simp at h
      | ok rest1 records1 =>
        rw [hloop] at h
        have h' : PResult.ok (α := List Record) rest1 (r :: records1) = .ok rest records := h
        injection h' with hrest hrecords
        have hinv1 : ∀ m, upd_node_id nid r = some m → vis.contains m = true := by
          intro m hm
          cases upd_node_id_cases nid r m hm with
          | inl h2 => exact hinv m h2
          | inr h2 =>
            obtain ⟨k, hk⟩ := h2
            refine hmach m k ?_
            rw [← hrecords, hk]
            exact List.mem_cons_self _ _
        have hmach1 : ∀ n k, Record.MachineDesc n k ∈ records1 → vis.contains n = true := by
          intro n k hm
          refine hmach n k ?_
          rw [← hrecords]
          exact List.mem_cons_of_mem _ hm
        have htrue := ih (upd_max_dim d r) (upd_node_id nid r) input1 rest1 records1
          hinv1 hloop hmach1
        simp only [parse_loop, hrec, htrue]
        rw [filter_record_visible pN mN r vis (upd_node_id nid r) hne hinv1]
        simp only [if_true]
        rw [hrest, hrecords]

/-- `parse` decomposes into the header-and-registry phase followed by the
record loop. -/
theorem parse_eq_header_loop (pN mN : Nat → Nat) (input vis : List Nat) (filt : Bool) :
    parse pN mN input vis filt =
      match parse_header input with
      | .ok body tbl => parse_loop pN mN tbl vis filt (body.length + 1) (-1) none body
      | .err => .err
      | .fatal => .fatal := by
  unfold parse parse_header
  cases h1 : parse_filetype.run input with
  | err => rfl
  | fatal => rfl
  | ok input1 version =>
    show (if version = (1, 0) then parse_after_version pN mN vis filt input1
          else PResult.fatal) =
        match (if version = (1, 0) then parse_rest_header input1 else PResult.fatal) with
        | .ok body tbl => parse_loop pN mN tbl vis filt (body.length + 1) (-1) none body
        | .err => .err
        | .fatal => .fatal
    by_cases hv : version = (1, 0)
    · rw [if_pos hv, if_pos hv]
      unfold parse_after_version
      cases h2 : parse_rest_header input1 with
      | ok body tbl => rfl
      | err => rfl
      | fatal => rfl
    · rw [if_neg hv, if_neg hv]

end LegionProf

namespace LegionProf

/-! ### Little-endian encoders and concrete example inputs -/

/-- Encode a value as `n` little-endian bytes. -/
def encodeLE : Nat → Nat → List Nat
  | 0, _ => []
  | n + 1, v => v % 256 :: encodeLE n (v / 256)

/-- Concatenated 8-byte little-endian encodings of a list of `u64` values. -/
def encList64 (ws : List Nat) : List Nat := (ws.map (encodeLE 8)).flatten

/-- A 4-byte little-endian encoding (for building example bodies). -/
def u32le (v : Nat) : List Nat := encodeLE 4 v

/-- Modelled from the spec (§4.5): the record kinds the visibility filter
retains when the file's node id is known and **not** in the visible set,
stated in the claim's own enumeration: the six descriptor kinds
unconditionally; processor-naming spans when the processor's owning node is
visible; instance timelines when the memory's owning node is visible;
copy/fill instance details when an endpoint memory's owning node is visible;
everything else dropped. -/
def spec_retained_when_foreign (pN mN : Nat → Nat) (vis : List Nat) : Record → Bool
  | .ProcDesc _ _ => true
  | .MemDesc _ _ _ => true
  | .ProcMDesc _ _ _ _ => true
  | .CopyInfo _ _ _ _ _ _ _ _ => true
  | .FillInfo _ _ _ _ _ _ _ => true
  | .PartitionInfo _ _ _ _ _ _ => true
  | .TaskInfo _ _ _ proc_id _ _ _ _ _ => vis.contains (pN proc_id)
  | .GPUTaskInfo _ _ _ proc_id _ _ _ _ _ _ _ => vis.contains (pN proc_id)
  | .MetaInfo _ _ proc_id _ _ _ _ _ => vis.contains (pN proc_id)
  | .InstTimelineInfo _ _ mem_id _ _ _ _ _ => vis.contains (mN mem_id)
  | .CopyInstInfo src dst _ _ _ _ _ _ _ =>
    vis.contains (mN src) || vis.contains (mN dst)
  | .FillInstInfo dst _ _ _ => vis.contains (mN dst)
  | _ => false

/-- An example header (rendered below as ASCII bytes) declaring all 44
required record kinds with ids 0..43, each with one `bool` field, terminated
by the blank line:

    FileType: BinaryLegionProf v: 1.0
    MapperCallDesc \x7bid:0, k:bool:1\x7d
    RuntimeCallDesc \x7bid:1, k:bool:1\x7d
    ... (one line per required kind, ids in registry order) ...
    ProfTaskInfo \x7bid:43, k:bool:1\x7d
    <blank line>

It is kept as a flat byte literal so that concrete runs of `parse` over it
normalize shallowly. -/
def exHeader : List Nat :=
  [70, 105, 108, 101, 84, 121, 112, 101, 58, 32, 66, 105, 110, 97, 114, 121, 76, 101,
   103, 105, 111, 110, 80, 114, 111, 102, 32, 118, 58, 32, 49, 46, 48, 10, 77, 97,
   112, 112, 101, 114, 67, 97, 108, 108, 68, 101, 115, 99, 32, 123, 105, 100, 58, 48,
   44, 32, 107, 58, 98, 111, 111, 108, 58, 49, 125, 10, 82, 117, 110, 116, 105, 109,
   101, 67, 97, 108, 108, 68, 101, 115, 99, 32, 123, 105, 100, 58, 49, 44, 32, 107,
   58, 98, 111, 111, 108, 58, 49, 125, 10, 77, 101, 116, 97, 68, 101, 115, 99, 32,
   123, 105, 100, 58, 50, 44, 32, 107, 58, 98, 111, 111, 108, 58, 49, 125, 10, 79,
   112, 68, 101, 115, 99, 32, 123, 105, 100, 58, 51, 44, 32, 107, 58, 98, 111, 111,
   108, 58, 49, 125, 10, 77, 97, 120, 68, 105, 109, 68, 101, 115, 99, 32, 123, 105,
   100, 58, 52, 44, 32, 107, 58, 98, 111, 111, 108, 58, 49, 125, 10, 77, 97, 99,
   104, 105, 110, 101, 68, 101, 115, 99, 32, 123, 105, 100, 58, 53, 44, 32, 107, 58,
   98, 111, 111, 108, 58, 49, 125, 10, 90, 101, 114, 111, 84, 105, 109, 101, 32, 123,
   105, 100, 58, 54, 44, 32, 107, 58, 98, 111, 111, 108, 58, 49, 125, 10, 80, 114,
   111, 99, 68, 101, 115, 99, 32, 123, 105, 100, 58, 55, 44, 32, 107, 58, 98, 111,
   111, 108, 58, 49, 125, 10, 77, 101, 109, 68, 101, 115, 99, 32, 123, 105, 100, 58,
   56, 44, 32, 107, 58, 98, 111, 111, 108, 58, 49, 125, 10, 80, 114, 111, 99, 77,
   68, 101, 115, 99, 32, 123, 105, 100, 58, 57, 44, 32, 107, 58, 98, 111, 111, 108,
   58, 49, 125, 10, 73, 110, 100, 101, 120, 83, 112, 97, 99, 101, 80, 111, 105, 110,
   116, 68, 101, 115, 99, 32, 123, 105, 100, 58, 49, 48, 44, 32, 107, 58, 98, 111,
   111, 108, 58, 49, 125, 10, 73, 110, 100, 101, 120, 83, 112, 97, 99, 101, 82, 101,
   99, 116, 68, 101, 115, 99, 32, 123, 105, 100, 58, 49, 49, 44, 32, 107, 58, 98,
   111, 111, 108, 58, 49, 125, 10, 73, 110, 100, 101, 120, 83, 112, 97, 99, 101, 69,
   109, 112, 116, 121, 68, 101, 115, 99, 32, 123, 105, 100, 58, 49, 50, 44, 32, 107,
   58, 98, 111, 111, 108, 58, 49, 125, 10, 70, 105, 101, 108, 100, 68, 101, 115, 99,
   32, 123, 105, 100, 58, 49, 51, 44, 32, 107, 58, 98, 111, 111, 108, 58, 49, 125,
   10, 70, 105, 101, 108, 100, 83, 112, 97, 99, 101, 68, 101, 115, 99, 32, 123, 105,
   100, 58, 49, 52, 44, 32, 107, 58, 98, 111, 111, 108, 58, 49, 125, 10, 80, 97,
   114, 116, 68, 101, 115, 99, 32, 123, 105, 100, 58, 49, 53, 44, 32, 107, 58, 98,
   111, 111, 108, 58, 49, 125, 10, 73, 110, 100, 101, 120, 83, 112, 97, 99, 101, 68,
   101, 115, 99, 32, 123, 105, 100, 58, 49, 54, 44, 32, 107, 58, 98, 111, 111, 108,
   58, 49, 125, 10, 73, 110, 100, 101, 120, 83, 117, 98, 83, 112, 97, 99, 101, 68,
   101, 115, 99, 32, 123, 105, 100, 58, 49, 55, 44, 32, 107, 58, 98, 111, 111, 108,
   58, 49, 125, 10, 73, 110, 100, 101, 120, 80, 97, 114, 116, 105, 116, 105, 111, 110,
   68, 101, 115, 99, 32, 123, 105, 100, 58, 49, 56, 44, 32, 107, 58, 98, 111, 111,
   108, 58, 49, 125, 10, 73, 110, 100, 101, 120, 83, 112, 97, 99, 101, 83, 105, 122,
   101, 68, 101, 115, 99, 32, 123, 105, 100, 58, 49, 57, 44, 32, 107, 58, 98, 111,
   111, 108, 58, 49, 125, 10, 76, 111, 103, 105, 99, 97, 108, 82, 101, 103, 105, 111,
   110, 68, 101, 115, 99, 32, 123, 105, 100, 58, 50, 48, 44, 32, 107, 58, 98, 111,
   111, 108, 58, 49, 125, 10, 80, 104, 121, 115, 105, 99, 97, 108, 73, 110, 115, 116,
   82, 101, 103, 105, 111, 110, 68, 101, 115, 99, 32, 123, 105, 100, 58, 50, 49, 44,
   32, 107, 58, 98, 111, 111, 108, 58, 49, 125, 10, 80, 104, 121, 115, 105, 99, 97,
   108, 73, 110, 115, 116, 76, 97, 121, 111, 117, 116, 68, 101, 115, 99, 32, 123, 105,
   100, 58, 50, 50, 44, 32, 107, 58, 98, 111, 111, 108, 58, 49, 125, 10, 80, 104,
   121, 115, 105, 99, 97, 108, 73, 110, 115, 116, 68, 105, 109, 79, 114, 100, 101, 114,
   68, 101, 115, 99, 32, 123, 105, 100, 58, 50, 51, 44, 32, 107, 58, 98, 111, 111,
   108, 58, 49, 125, 10, 80, 104, 121, 115, 105, 99, 97, 108, 73, 110, 115, 116, 97,
   110, 99, 101, 85, 115, 97, 103, 101, 32, 123, 105, 100, 58, 50, 52, 44, 32, 107,
   58, 98, 111, 111, 108, 58, 49, 125, 10, 84, 97, 115, 107, 75, 105, 110, 100, 32,
   123, 105, 100, 58, 50, 53, 44, 32, 107, 58, 98, 111, 111, 108, 58, 49, 125, 10,
   84, 97, 115, 107, 86, 97, 114, 105, 97, 110, 116, 32, 123, 105, 100, 58, 50, 54,
   44, 32, 107, 58, 98, 111, 111, 108, 58, 49, 125, 10, 79, 112, 101, 114, 97, 116,
   105, 111, 110, 73, 110, 115, 116, 97, 110, 99, 101, 32, 123, 105, 100, 58, 50, 55,
   44, 32, 107, 58, 98, 111, 111, 108, 58, 49, 125, 10, 77, 117, 108, 116, 105, 84,
   97, 115, 107, 32, 123, 105, 100, 58, 50, 56, 44, 32, 107, 58, 98, 111, 111, 108,
   58, 49, 125, 10, 83, 108, 105, 99, 101, 79, 119, 110, 101, 114, 32, 123, 105, 100,
   58, 50, 57, 44, 32, 107, 58, 98, 111, 111, 108, 58, 49, 125, 10, 84, 97, 115,
   107, 87, 97, 105, 116, 73, 110, 102, 111, 32, 123, 105, 100, 58, 51, 48, 44, 32,
   107, 58, 98, 111, 111, 108, 58, 49, 125, 10, 77, 101, 116, 97, 87, 97, 105, 116,
   73, 110, 102, 111, 32, 123, 105, 100, 58, 51, 49, 44, 32, 107, 58, 98, 111, 111,
   108, 58, 49, 125, 10, 84, 97, 115, 107, 73, 110, 102, 111, 32, 123, 105, 100, 58,
   51, 50, 44, 32, 107, 58, 98, 111, 111, 108, 58, 49, 125, 10, 71, 80, 85, 84,
   97, 115, 107, 73, 110, 102, 111, 32, 123, 105, 100, 58, 51, 51, 44, 32, 107, 58,
   98, 111, 111, 108, 58, 49, 125, 10, 77, 101, 116, 97, 73, 110, 102, 111, 32, 123,
   105, 100, 58, 51, 52, 44, 32, 107, 58, 98, 111, 111, 108, 58, 49, 125, 10, 67,
   111, 112, 121, 73, 110, 102, 111, 32, 123, 105, 100, 58, 51, 53, 44, 32, 107, 58,
   98, 111, 111, 108, 58, 49, 125, 10, 67, 111, 112, 121, 73, 110, 115, 116, 73, 110,
   102, 111, 32, 123, 105, 100, 58, 51, 54, 44, 32, 107, 58, 98, 111, 111, 108, 58,
   49, 125, 10, 70, 105, 108, 108, 73, 110, 102, 111, 32, 123, 105, 100, 58, 51, 55,
   44, 32, 107, 58, 98, 111, 111, 108, 58, 49, 125, 10, 70, 105, 108, 108, 73, 110,
   115, 116, 73, 110, 102, 111, 32, 123, 105, 100, 58, 51, 56, 44, 32, 107, 58, 98,
   111, 111, 108, 58, 49, 125, 10, 73, 110, 115, 116, 84, 105, 109, 101, 108, 105, 110,
   101, 73, 110, 102, 111, 32, 123, 105, 100, 58, 51, 57, 44, 32, 107, 58, 98, 111,
   111, 108, 58, 49, 125, 10, 80, 97, 114, 116, 105, 116, 105, 111, 110, 73, 110, 102,
   111, 32, 123, 105, 100, 58, 52, 48, 44, 32, 107, 58, 98, 111, 111, 108, 58, 49,
   125, 10, 77, 97, 112, 112, 101, 114, 67, 97, 108, 108, 73, 110, 102, 111, 32, 123,
   105, 100, 58, 52, 49, 44, 32, 107, 58, 98, 111, 111, 108, 58, 49, 125, 10, 82,
   117, 110, 116, 105, 109, 101, 67, 97, 108, 108, 73, 110, 102, 111, 32, 123, 105, 100,
   58, 52, 50, 44, 32, 107, 58, 98, 111, 111, 108, 58, 49, 125, 10, 80, 114, 111,
   102, 84, 97, 115, 107, 73, 110, 102, 111, 32, 123, 105, 100, 58, 52, 51, 44, 32,
   107, 58, 98, 111, 111, 108, 58, 49, 125, 10, 10]

/-- Example body: machine descriptor for node 0, then a second machine
descriptor for node 1, then a zero-time record (tag ids 5, 5, 6). -/
def exBody1 : List Nat :=
  u32le 5 ++ u32le 0 ++ u32le 2 ++
  u32le 5 ++ u32le 1 ++ u32le 2 ++
  u32le 6 ++ [5, 0, 0, 0, 0, 0, 0, 0]

def exInput1 : List Nat := exHeader ++ exBody1

/-- Example body: machine descriptor for node 0, then a zero-time record. -/
def exBody2 : List Nat :=
  u32le 5 ++ u32le 0 ++ u32le 2 ++
  u32le 6 ++ [5, 0, 0, 0, 0, 0, 0, 0]

/-- The suffix of `exBody2` after its machine-descriptor record. -/
def exBody2a : List Nat := u32le 6 ++ [5, 0, 0, 0, 0, 0, 0, 0]

def exInput2 : List Nat := exHeader ++ exBody2

/-- The dispatch table `parse_header` builds for the example header. -/
def exTbl : Table :=
  match parse_header exInput2 with
  | .ok _ tbl => tbl
  | _ => []

end LegionProf

namespace LegionProf

/-! ### Encoding lemmas for Array/Point sizing -/

theorem encodeLE_length (n : Nat) : ∀ v, (encodeLE n v).length = n := by
  induction n with
  | zero => intro v; rfl
  | succ n ih =>
    intro v
    simp only [encodeLE, List.length_cons, ih]

theorem le_bytes_encodeLE (n : Nat) : ∀ (v : Nat) (rest : List Nat),
    (le_bytes n).run (encodeLE n v ++ rest) = .ok rest (v % 256 ^ n) := by
  induction n with
  | zero =>
    intro v rest
    show (ppure 0).run rest = .ok rest (v % 1)
    rw [Nat.mod_one, run_ppure]
  | succ n ih =>
    intro v rest
    show (le_bytes (n + 1)).run (v % 256 :: (encodeLE n (v / 256) ++ rest)) = _
    simp only [le_bytes]
    rw [run_pbind_ok (run_le_u8_cons _ _)]
    rw [run_pbind_ok (ih (v / 256) rest)]
    rw [run_ppure]
    have harith : v % 256 + 256 * (v / 256 % 256 ^ n) = v % 256 ^ (n + 1) := by
      rw [pow_succ, mul_comm (256 ^ n) 256, ← Nat.mod_mul]
    rw [harith]

theorem le_u64_encodeLE (v : Nat) (rest : List Nat) (hv : v < 2 ^ 64) :
    le_u64.run (encodeLE 8 v ++ rest) = .ok rest v := by
  have h := le_bytes_encodeLE 8 v rest
  have h256 : (256 : Nat) ^ 8 = 2 ^ 64 := by norm_num
  rw [h256, Nat.mod_eq_of_lt hv] at h
  exact h

theorem pcount_le_u64_encList (ws : List Nat) : ∀ (rest : List Nat),
    (∀ w ∈ ws, w < 2 ^ 64) →
    (pcount ws.length le_u64).run (encList64 ws ++ rest) = .ok rest ws := by
  induction ws with
  | nil =>
    intro rest _
    show (ppure []).run rest = _
    rw [run_ppure]
  | cons w ws1 ih =>
    intro rest hw
    have hw1 : w < 2 ^ 64 := hw w (List.mem_cons_self _ _)
    have hws1 : ∀ x ∈ ws1, x < 2 ^ 64 := fun x hx => hw x (List.mem_cons_of_mem _ hx)
    show (pcount (ws1.length + 1) le_u64).run
        ((encodeLE 8 w ++ encList64 ws1) ++ rest) = _
    rw [List.append_assoc]
    simp only [pcount]
    rw [run_pbind_ok (le_u64_encodeLE w (encList64 ws1 ++ rest) hw1)]
    rw [run_pbind_ok (ih rest hws1)]
    rw [run_ppure]

theorem encList64_length (ws : List Nat) : (encList64 ws).length = 8 * ws.length := by
  induction ws with
  | nil => rfl
  | cons w ws1 ih =>
    show (encodeLE 8 w ++ encList64 ws1).length = _
    rw [List.length_append, encodeLE_length, ih, List.length_cons]
    ring

end LegionProf

namespace LegionProf

/-! ### Header text lemmas for the version gate -/

theorem run_take_while1_cons (f : Nat → Bool) (b : Nat) (t : List Nat) :
    (take_while1 f).run (b :: t) =
      if f b then .ok ((b :: t).dropWhile f) ((b :: t).takeWhile f) else .err := rfl

theorem take_while1_digits (ds : List Nat) (c : Nat) (t : List Nat)
    (hne : ds ≠ []) (hds : ∀ b ∈ ds, is_digit b = true) (hc : is_digit c = false) :
    (take_while1 is_digit).run (ds ++ c :: t) = .ok (c :: t) ds := by
  cases ds with
  | nil => exact absurd rfl hne
  | cons d ds1 =>
    have hd : is_digit d = true := hds d (List.mem_cons_self _ _)
    have htw := takeWhile_append_cons is_digit (d :: ds1) c t hds hc
    rw [List.cons_append, run_take_while1_cons, if_pos hd, ← List.cons_append,
      htw.1, htw.2]

theorem parse_text_u32_digits (ds : List Nat) (c : Nat) (t : List Nat)
    (hne : ds ≠ []) (hds : ∀ b ∈ ds, is_digit b = true) (hc : is_digit c = false)
    (hof : digitsVal ds < 4294967296) :
    parse_text_u32.run (ds ++ c :: t) = .ok (c :: t) (digitsVal ds) := by
  unfold parse_text_u32
  rw [run_pbind_ok (take_while1_digits ds c t hne hds hc), if_pos hof, run_ppure]

theorem parse_filetype_version (d1 d2 rest : List Nat)
    (h1 : d1 ≠ []) (h2 : d2 ≠ [])
    (hd1 : ∀ b ∈ d1, is_digit b = true) (hd2 : ∀ b ∈ d2, is_digit b = true)
    (ho1 : digitsVal d1 < 4294967296) (ho2 : digitsVal d2 < 4294967296) :
    parse_filetype.run
        (strBytes "FileType: BinaryLegionProf v: " ++ (d1 ++ (46 :: (d2 ++ (10 :: rest))))) =
      .ok rest (digitsVal d1, digitsVal d2) := by
  unfold parse_filetype
  rw [run_pbind_ok (ptag_run_append (strBytes "FileType: BinaryLegionProf v: ")
    (d1 ++ (46 :: (d2 ++ (10 :: rest)))))]
  rw [run_pbind_ok (parse_text_u32_digits d1 46 (d2 ++ (10 :: rest)) h1 hd1 rfl ho1)]
  have h46 : (ptag (strBytes ".")).run (46 :: (d2 ++ (10 :: rest))) =
      .ok (d2 ++ (10 :: rest)) () := ptag_run_append (strBytes ".") (d2 ++ (10 :: rest))
  rw [run_pbind_ok h46]
  rw [run_pbind_ok (parse_text_u32_digits d2 10 rest h2 hd2 rfl ho2)]
  have h10 : newline.run (10 :: rest) = .ok rest () :=
    ptag_run_append (strBytes "\n") rest
  rw [run_pbind_ok h10, run_ppure]

/-! ### No-fatal lemmas for the composite codecs -/

theorem le_bytes_ne_fatal (n : Nat) : ∀ i, (le_bytes n).run i ≠ .fatal := by
  induction n with
  | zero =>
    intro i h
    exact PResult.noConfusion h
  | succ n ih =>
    intro i h
    cases i with
    | nil =>
      rw [show (le_bytes (n + 1)).run [] = .err from rfl] at h
      exact PResult.noConfusion h
    | cons b t =>
      simp only [le_bytes] at h
      rw [run_pbind_ok (run_le_u8_cons b t)] at h
      cases hrec : (le_bytes n).run t with
      | ok r v =>
        rw [run_pbind_ok hrec, run_ppure] at h
        exact PResult.noConfusion h
      | err =>
        rw [run_pbind_err hrec] at h
        exact PResult.noConfusion h
      | fatal => exact ih t hrec

theorem pcount_le_u64_ne_fatal (n : Nat) : ∀ i, (pcount n le_u64).run i ≠ .fatal := by
  induction n with
  | zero =>
    intro i h
    exact PResult.noConfusion h
  | succ n ih =>
    intro i h
    cases h64 : le_u64.run i with
    | ok r v =>
      rw [show pcount (n + 1) le_u64 =
        pbind le_u64 (fun a => pbind (pcount n le_u64) (fun as => ppure (a :: as)))
        from rfl] at h
      rw [run_pbind_ok h64] at h
      cases hrec : (pcount n le_u64).run r with
      | ok r1 as =>
        rw [run_pbind_ok hrec, run_ppure] at h
        exact PResult.noConfusion h
      | err =>
        rw [run_pbind_err hrec] at h
        exact PResult.noConfusion h
      | fatal => exact ih r hrec
    | err =>
      rw [show pcount (n + 1) le_u64 =
        pbind le_u64 (fun a => pbind (pcount n le_u64) (fun as => ppure (a :: as)))
        from rfl] at h
      rw [run_pbind_err h64] at h
      exact PResult.noConfusion h
    | fatal => exact le_bytes_ne_fatal 8 i h64

end LegionProf

namespace LegionProf

/-! ### Claim theorems -/

/-- C5: for every header whose FileType line declares version `major.minor`
(written as digit strings), `parse` proceeds past the version check exactly
when `(major, minor) = (1, 0)`; any other declared version makes the whole
call abort fatally. -/
theorem C5_version_gate (pN mN : Nat → Nat) (vis : List Nat) (filt : Bool)
    (d1 d2 rest : List Nat)
    (h1 : d1 ≠ []) (h2 : d2 ≠ [])
    (hd1 : ∀ b ∈ d1, is_digit b = true) (hd2 : ∀ b ∈ d2, is_digit b = true)
    (ho1 : digitsVal d1 < 4294967296) (ho2 : digitsVal d2 < 4294967296) :
    parse pN mN
        (strBytes "FileType: BinaryLegionProf v: " ++ (d1 ++ (46 :: (d2 ++ (10 :: rest)))))
        vis filt =
      if (digitsVal d1, digitsVal d2) = (1, 0)
      then parse_after_version pN mN vis filt rest
      else .fatal := by
  unfold parse
  rw [parse_filetype_version d1 d2 rest h1 h2 hd1 hd2 ho1 ho2]

/-- C5 witness: the concrete version `2.0` is rejected fatally, and `1.0`
proceeds into the post-version phase. -/
theorem C5_version_gate_witness :
    (parse (fun x => x) (fun x => x)
        (strBytes "FileType: BinaryLegionProf v: " ++ ([50] ++ (46 :: ([48] ++ (10 :: [])))))
        [0] false = .fatal) ∧
    (parse (fun x => x) (fun x => x)
        (strBytes "FileType: BinaryLegionProf v: " ++ ([49] ++ (46 :: ([48] ++ (10 :: [])))))
        [0] false = parse_after_version (fun x => x) (fun x => x) [0] false []) := by
  constructor
  · have h := C5_version_gate (fun x => x) (fun x => x) [0] false [50] [48] []
      (by decide) (by decide) (by decide) (by decide) (by decide) (by decide)
    rw [h]
    decide
  · have h := C5_version_gate (fun x => x) (fun x => x) [0] false [49] [48] []
      (by decide) (by decide) (by decide) (by decide) (by decide) (by decide)
    rw [h]
    rfl

/-- C6: a record whose leading little-endian u32 tag is not bound in the
dispatch table decodes fatally (the `BTreeMap` index panic), and the record
loop aborts the whole call with it rather than treating it as a clean end of
stream. -/
theorem C6_unknown_tag_fatal (parsers : Table) (d : Int) (b0 b1 b2 b3 : Nat)
    (rest : List Nat) (pN mN : Nat → Nat) (vis : List Nat) (filt : Bool)
    (nid : Option Nat) (fuel : Nat)
    (h : lookupAssoc parsers (leVal [b0, b1, b2, b3]) = none) :
    (parse_record parsers d).run (b0 :: b1 :: b2 :: b3 :: rest) = .fatal ∧
    parse_loop pN mN parsers vis filt (fuel + 1) d nid
      (b0 :: b1 :: b2 :: b3 :: rest) = .fatal := by
  have hrec : (parse_record parsers d).run (b0 :: b1 :: b2 :: b3 :: rest) = .fatal := by
    unfold parse_record
    have ha : le_u32.run (b0 :: b1 :: b2 :: b3 :: rest) =
        .ok rest (leVal [b0, b1, b2, b3]) := le_bytes_append 4 [b0, b1, b2, b3] rest rfl
    rw [run_pbind_ok ha, h]
    rfl
  exact ⟨hrec, by simp only [parse_loop, hrec]⟩

/-- C6 witness: tag 0 against an empty dispatch table is fatal at the record
and at the loop level. -/
theorem C6_unknown_tag_fatal_witness :
    (parse_record [] (-1)).run (0 :: 0 :: 0 :: 0 :: []) = .fatal ∧
    parse_loop (fun x => x) (fun x => x) [] [0] false 1 (-1) none
      (0 :: 0 :: 0 :: 0 :: []) = .fatal :=
  C6_unknown_tag_fatal [] (-1) 0 0 0 0 [] (fun x => x) (fun x => x) [0] false none 0 rfl

/-- C7: with running dimensionality `d ≥ 0`, an Array field consumes exactly
`2 × d` consecutive little-endian u64 values (`16 × d` bytes) and a Point
field exactly `d` values (`8 × d` bytes); `d = 0` consumes zero bytes for
either. -/
theorem C7_array_point_sizing (d : Nat) (ws vs rest1 rest2 : List Nat)
    (hw : ws.length = 2 * d) (hwv : ∀ w ∈ ws, w < 2 ^ 64)
    (hv : vs.length = d) (hvv : ∀ v ∈ vs, v < 2 ^ 64) :
    (parse_array ((d : Nat) : Int)).run (encList64 ws ++ rest1) = .ok rest1 ws ∧
    (encList64 ws).length = 16 * d ∧
    (parse_point ((d : Nat) : Int)).run (encList64 vs ++ rest2) = .ok rest2 vs ∧
    (encList64 vs).length = 8 * d ∧
    (parse_array 0).run rest1 = .ok rest1 [] ∧
    (parse_point 0).run rest2 = .ok rest2 [] := by
  have hpos : ((d : Nat) : Int) > -1 := by omega
  refine ⟨?_, ?_, ?_, ?_, rfl, rfl⟩
  · unfold parse_array
    rw [if_pos hpos]
    have h2 : (((d : Nat) : Int) * 2).toNat = 2 * d := by omega
    rw [h2, ← hw]
    exact pcount_le_u64_encList ws rest1 hwv
  · rw [encList64_length, hw]
    ring
  · unfold parse_point
    rw [if_pos hpos]
    have h2 : ((d : Nat) : Int).toNat = d := by omega
    rw [h2, ← hv]
    exact pcount_le_u64_encList vs rest2 hvv
  · rw [encList64_length, hv]

/-- C7 witness: dimensionality 1, an Array of two values and a Point of one. -/
theorem C7_array_point_sizing_witness :
    (parse_array ((1 : Nat) : Int)).run (encList64 [3, 5] ++ [1]) = .ok [1] [3, 5] ∧
    (encList64 [3, 5]).length = 16 * 1 ∧
    (parse_point ((1 : Nat) : Int)).run (encList64 [9] ++ [2]) = .ok [2] [9] ∧
    (encList64 [9]).length = 8 * 1 ∧
    (parse_array 0).run [1] = .ok [1] [] ∧
    (parse_point 0).run [2] = .ok [2] [] :=
  C7_array_point_sizing 1 [3, 5] [9] [1] [2] (by decide) (by decide) (by decide) (by decide)

/-- C8: string decoding returns the bytes strictly before the first zero byte
(the Rust `String` is exactly that UTF-8 byte content), consumes those bytes
plus the terminating zero, and fails when the bytes are not valid UTF-8. -/
theorem C8_string_decode (s t : List Nat) (h0 : ∀ b ∈ s, b ≠ 0) :
    parse_string.run (s ++ 0 :: t) =
      (if (utf8Chars s).isSome then .ok t s else .err) ∧
    s.length + 1 + t.length = (s ++ 0 :: t).length := by
  refine ⟨parse_string_split s t h0, ?_⟩
  rw [List.length_append, List.length_cons]
  omega

/-- C8 witness: bytes `'a','b','c',0` decode to the 3-character string `abc`
advancing by 4 bytes, and a lone `0xFF` before the terminator fails. -/
theorem C8_string_decode_witness :
    (parse_string.run ([97, 98, 99] ++ 0 :: [7]) = .ok [7] [97, 98, 99] ∧
     (utf8Chars [97, 98, 99]).map List.length = some 3) ∧
    parse_string.run ([255] ++ 0 :: [7]) = .err :=
  ⟨⟨((C8_string_decode [97, 98, 99] [7] (by decide)).1).trans (by decide), by decide⟩,
   ((C8_string_decode [255] [7] (by decide)).1).trans (by decide)⟩

/-- C9: decoding an Array or Point (directly, or inside the index-space
rect/point records after their leading fields) while the running
dimensionality is still `-1` is an immediate fatal error; with dimensionality
`≥ 0` the guard never fires. -/
theorem C9_dim_guard (input rest : List Nat) (d : Int)
    (c0 c1 c2 c3 c4 c5 c6 c7 c8 c9 c10 c11 : Nat) (hd : 0 ≤ d) :
    ((parse_array (-1)).run input = .fatal ∧
     (parse_point (-1)).run input = .fatal ∧
     (parse_index_space_rect_desc (-1)).run
       (c0 :: c1 :: c2 :: c3 :: c4 :: c5 :: c6 :: c7 :: c8 :: c9 :: c10 :: c11 :: rest) =
       .fatal ∧
     (parse_index_space_point_desc (-1)).run
       (c0 :: c1 :: c2 :: c3 :: c4 :: c5 :: c6 :: c7 :: c8 :: c9 :: c10 :: c11 :: rest) =
       .fatal) ∧
    ((parse_array d).run input ≠ .fatal ∧ (parse_point d).run input ≠ .fatal) := by
  have harr : ∀ i : List Nat, (parse_array (-1)).run i = .fatal := fun i => rfl
  have hpt : ∀ i : List Nat, (parse_point (-1)).run i = .fatal := fun i => rfl
  have hisp : parse_ispace_id.run
      (c0 :: c1 :: c2 :: c3 :: c4 :: c5 :: c6 :: c7 :: c8 :: c9 :: c10 :: c11 :: rest) =
      .ok (c8 :: c9 :: c10 :: c11 :: rest) (leVal [c0, c1, c2, c3, c4, c5, c6, c7]) :=
    le_bytes_append 8 [c0, c1, c2, c3, c4, c5, c6, c7] _ rfl
  have hdim : le_u32.run (c8 :: c9 :: c10 :: c11 :: rest) =
      .ok rest (leVal [c8, c9, c10, c11]) := le_bytes_append 4 [c8, c9, c10, c11] rest rfl
  have hposa : parse_array d = pcount (d * 2).toNat le_u64 := by
    unfold parse_array
    rw [if_pos (by omega)]
  have hposp : parse_point d = pcount d.toNat le_u64 := by
    unfold parse_point
    rw [if_pos (by omega)]
  refine ⟨⟨harr input, hpt input, ?_, ?_⟩, ?_, ?_⟩
  · unfold parse_index_space_rect_desc
    rw [run_pbind_ok hisp, run_pbind_ok hdim]
    exact run_pbind_fatal (harr rest)
  · unfold parse_index_space_point_desc
    rw [run_pbind_ok hisp, run_pbind_ok hdim]
    exact run_pbind_fatal (hpt rest)
  · rw [hposa]
    exact pcount_le_u64_ne_fatal _ input
  · rw [hposp]
    exact pcount_le_u64_ne_fatal _ input

/-- C9 witness: the guards at dimensionality `-1` and `3`, on concrete bytes. -/
theorem C9_dim_guard_witness :
    (((parse_array (-1)).run [1, 2] = .fatal ∧
      (parse_point (-1)).run [1, 2] = .fatal ∧
      (parse_index_space_rect_desc (-1)).run
        (9 :: 0 :: 0 :: 0 :: 0 :: 0 :: 0 :: 0 :: 1 :: 0 :: 0 :: 0 :: []) = .fatal ∧
      (parse_index_space_point_desc (-1)).run
        (9 :: 0 :: 0 :: 0 :: 0 :: 0 :: 0 :: 0 :: 1 :: 0 :: 0 :: 0 :: []) = .fatal) ∧
     ((parse_array 3).run [1, 2] ≠ .fatal ∧ (parse_point 3).run [1, 2] ≠ .fatal)) :=
  C9_dim_guard [1, 2] [] 3 9 0 0 0 0 0 0 0 1 0 0 0 (by decide)

/-- C10: the machine descriptor's node id is decoded from a 4-byte
little-endian field and widened to 64 bits, the payload is exactly 8 bytes
(u32 node id then u32 num_nodes), and every capturable node id is below
`2^32`. -/
theorem C10_machine_desc_width (b0 b1 b2 b3 b4 b5 b6 b7 : Nat) (rest : List Nat)
    (d : Int) (h0 : b0 < 256) (h1 : b1 < 256) (h2 : b2 < 256) (h3 : b3 < 256) :
    (parse_machine_desc d).run (b0 :: b1 :: b2 :: b3 :: b4 :: b5 :: b6 :: b7 :: rest) =
      .ok rest (.MachineDesc (leVal [b0, b1, b2, b3]) (leVal [b4, b5, b6, b7])) ∧
    leVal [b0, b1, b2, b3] < 4294967296 := by
  constructor
  · have ha : le_u32.run (b0 :: b1 :: b2 :: b3 :: b4 :: b5 :: b6 :: b7 :: rest) =
        .ok (b4 :: b5 :: b6 :: b7 :: rest) (leVal [b0, b1, b2, b3]) :=
      le_bytes_append 4 [b0, b1, b2, b3] _ rfl
    have hb : le_u32.run (b4 :: b5 :: b6 :: b7 :: rest) =
        .ok rest (leVal [b4, b5, b6, b7]) := le_bytes_append 4 [b4, b5, b6, b7] rest rfl
    unfold parse_machine_desc
    rw [run_pbind_ok ha, run_pbind_ok hb, run_ppure]
  · simp only [leVal, List.foldr]
    omega

/-- C10 witness: the concrete payload `[7,0,0,0, 2,0,0,0]` yields node id 7
and num_nodes 2, consuming exactly 8 bytes. -/
theorem C10_machine_desc_width_witness :
    (parse_machine_desc (-1)).run (7 :: 0 :: 0 :: 0 :: 2 :: 0 :: 0 :: 0 :: [9]) =
      .ok [9] (.MachineDesc (leVal [7, 0, 0, 0]) (leVal [2, 0, 0, 0])) ∧
    leVal [7, 0, 0, 0] < 4294967296 :=
  C10_machine_desc_width 7 0 0 0 2 0 0 0 [9] (-1)
    (by decide) (by decide) (by decide) (by decide)

end LegionProf

namespace LegionProf

/-- C1 (amended): every machine descriptor overwrites the running node id —
after decoding `MachineDesc n k`, the loop continues (and filters that very
record and all later ones) with node id `n`, regardless of any previously
captured node id.  The most recent machine descriptor wins, not the first. -/
theorem C1_node_id_overwrite (pN mN : Nat → Nat) (tbl : Table) (vis : List Nat)
    (filt : Bool) (fuel : Nat) (d : Int) (nid : Option Nat)
    (input input1 : List Nat) (n k : Nat)
    (h : (parse_record tbl d).run input = .ok input1 (.MachineDesc n k)) :
    parse_loop pN mN tbl vis filt (fuel + 1) d nid input =
      match (if filt then filter_record pN mN (.MachineDesc n k) vis (some n)
             else some true) with
      | none => .fatal
      | some keep =>
        match parse_loop pN mN tbl vis filt fuel d (some n) input1 with
        | .fatal => .fatal
        | .err => .err
        | .ok rest records =>
          .ok rest (if keep then .MachineDesc n k :: records else records) := by
  simp only [parse_loop, h, upd_node_id, upd_max_dim]

/-- C1 amended witness: with visible set `{5}` and previously captured node
id 5, a machine descriptor declaring node 7 is filtered against node 7 (its
own declaration, overwriting the 5) and dropped. -/
theorem C1_node_id_overwrite_witness :
    parse_loop (fun x => x) (fun x => x) [(0, parse_machine_desc)] [5] true 1 (-1)
      (some 5) (0 :: 0 :: 0 :: 0 :: 7 :: 0 :: 0 :: 0 :: 2 :: 0 :: 0 :: 0 :: []) =
      .ok [] [] := by
  have h : (parse_record [(0, parse_machine_desc)] (-1)).run
      (0 :: 0 :: 0 :: 0 :: 7 :: 0 :: 0 :: 0 :: 2 :: 0 :: 0 :: 0 :: []) =
      .ok [] (.MachineDesc 7 2) := rfl
  rw [C1_node_id_overwrite (fun x => x) (fun x => x) [(0, parse_machine_desc)] [5]
    true 0 (-1) (some 5) _ [] 7 2 h]
  rfl

set_option maxRecDepth 200000 in
/-- C1 counterexample: `exInput1` holds machine descriptors for node 0 then
node 1, then a zero-time record, with visible set `{0}`.  The claim predicts
the zero-time record is tested against the FIRST descriptor's node id 0 — and
`filter_record` at node id 0 would indeed retain it (third conjunct) — yet the
filtered parse drops it (first conjunct; compare the unfiltered parse in the
second), because the second machine descriptor overwrote the running node id
with 1. -/
theorem C1_first_wins_counterexample :
    parse (fun x => x) (fun x => x) exInput1 [0] true = .ok [] [.MachineDesc 0 2] ∧
    parse (fun x => x) (fun x => x) exInput1 [0] false =
      .ok [] [.MachineDesc 0 2, .MachineDesc 1 2, .ZeroTime 5] ∧
    filter_record (fun x => x) (fun x => x) (.ZeroTime 5) [0] (some 0) = some true :=
  ⟨by rfl, by rfl, by rfl⟩

/-- C2: a well-formed input whose body is exactly a decodable record chain
with zero trailing bytes deserializes (unfiltered) to exactly those records
in order; appending one stray byte after the last record makes `deserialize`
fail.  (The third hypothesis just says the appended file's textual header
still parses the same, which extending the binary body cannot change.) -/
theorem C2_full_consumption (pN mN : Nat → Nat) (vis input body : List Nat)
    (tbl : Table) (records : List Record) (b : Nat)
    (hheader : parse_header input = .ok body tbl)
    (hdec : Decodes tbl (-1) body records)
    (hheader2 : parse_header (input ++ [b]) = .ok (body ++ [b]) tbl) :
    deserialize pN mN input vis false = some records ∧
    deserialize pN mN (input ++ [b]) vis false = none := by
  constructor
  · have hp : parse pN mN input vis false = .ok [] records := by
      rw [parse_eq_header_loop, hheader]
      exact parse_loop_of_decodes tbl (-1) body records hdec pN mN vis none
        (body.length + 1) (Nat.lt_succ_self _)
    unfold deserialize
    rw [hp]
    rfl
  · have htbl := parse_header_table (input ++ [b]) (body ++ [b]) tbl hheader2
    have hp : parse pN mN (input ++ [b]) vis false = .ok [b] records := by
      rw [parse_eq_header_loop, hheader2]
      exact parse_loop_decodes_append tbl htbl (-1) body records hdec pN mN vis none
        ((body ++ [b]).length + 1) b
        (by simp only [List.length_append, List.length_cons, List.length_nil]; omega)
    unfold deserialize
    rw [hp]
    rfl

set_option maxRecDepth 400000 in
/-- C2 witness: the concrete two-record file `exInput2` deserializes to its
two records, and the same file with one stray byte appended fails. -/
theorem C2_full_consumption_witness :
    deserialize (fun x => x) (fun x => x) exInput2 [0] false =
      some [.MachineDesc 0 2, .ZeroTime 5] ∧
    deserialize (fun x => x) (fun x => x) (exInput2 ++ [0]) [0] false = none := by
  refine C2_full_consumption (fun x => x) (fun x => x) [0] exInput2 exBody2 exTbl
    [.MachineDesc 0 2, .ZeroTime 5] 0 ?_ ?_ ?_
  · rfl
  · exact Decodes.cons (-1) exBody2 exBody2a (.MachineDesc 0 2) [.ZeroTime 5] (by rfl)
      (Decodes.cons _ exBody2a [] (.ZeroTime 5) [] (by rfl) (Decodes.nil _))
  · have happ : exInput2 ++ [0] = exHeader ++ (exBody2 ++ [0]) :=
      List.append_assoc exHeader exBody2 [0]
    rw [happ]
    rfl

/-- C3: with the file's node id known and outside the (non-empty) visible
set, `filter_record` decides every record kind exactly as the claim's
enumeration (`spec_retained_when_foreign`) prescribes. -/
theorem C3_filter_foreign (pN mN : Nat → Nat) (vis : List Nat) (n : Nat) (r : Record)
    (hne : vis ≠ []) (hn : vis.contains n = false) :
    filter_record pN mN r vis (some n) =
      some (spec_retained_when_foreign pN mN vis r) := by
  have hE : vis.isEmpty = false := by
    cases vis with
    | nil => exact absurd rfl hne
    | cons v t => rfl
  unfold filter_record
  rw [hE]
  simp only [hn, Bool.not_false]
  cases r <;> rfl

/-- C3 witness: at node id 1 against visible set `{0}`, a zero-time record is
dropped and a processor descriptor retained, in both cases agreeing with the
spec-side rule. -/
theorem C3_filter_foreign_witness :
    (filter_record (fun x => x) (fun x => x) (.ZeroTime 5) [0] (some 1) =
      some (spec_retained_when_foreign (fun x => x) (fun x => x) [0] (.ZeroTime 5))) ∧
    (filter_record (fun x => x) (fun x => x) (.ProcDesc 3 1) [0] (some 1) =
      some (spec_retained_when_foreign (fun x => x) (fun x => x) [0] (.ProcDesc 3 1))) :=
  ⟨C3_filter_foreign (fun x => x) (fun x => x) [0] 1 (.ZeroTime 5) (by decide) (by decide),
   C3_filter_foreign (fun x => x) (fun x => x) [0] 1 (.ProcDesc 3 1) (by decide) (by decide)⟩

/-- C4: if every machine descriptor in the file declares a node id in the
(non-empty) visible set — records before it being retained because the node
id is not yet known — then filtered parsing returns a record sequence
identical to unfiltered parsing. -/
theorem C4_filter_passthrough (pN mN : Nat → Nat) (input vis rest : List Nat)
    (records : List Record) (hne : vis ≠ [])
    (hfalse : parse pN mN input vis false = .ok rest records)
    (hmach : ∀ n k, Record.MachineDesc n k ∈ records → vis.contains n = true) :
    parse pN mN input vis true = .ok rest records := by
  rw [parse_eq_header_loop] at hfalse ⊢
  cases hh : parse_header input with
  | ok body tbl =>
    rw [hh] at hfalse
    have hf2 : parse_loop pN mN tbl vis false (body.length + 1) (-1) none body =
        .ok rest records := hfalse
    exact parse_loop_filter_passthrough pN mN tbl vis hne (body.length + 1) (-1) none
      body rest records (fun m hm => Option.noConfusion hm) hf2 hmach
  | err =>
    rw [hh] at hfalse
    exact PResult.noConfusion hfalse
  | fatal =>
    rw [hh] at hfalse
    exact PResult.noConfusion hfalse

set_option maxRecDepth 400000 in
/-- C4 witness: `exInput2` declares node 0 and the visible set is `{0}`:
filtering changes nothing. -/
theorem C4_filter_passthrough_witness :
    parse (fun x => x) (fun x => x) exInput2 [0] true =
      .ok [] [.MachineDesc 0 2, .ZeroTime 5] := by
  refine C4_filter_passthrough (fun x => x) (fun x => x) exInput2 [0] []
    [.MachineDesc 0 2, .ZeroTime 5] (by decide) (by rfl) ?_
  intro n k h
  rcases List.mem_cons.mp h with h1 | h2
  · injection h1 with hn hk
    subst hn
    rfl
  · rcases List.mem_cons.mp h2 with h3 | h4
    · exact Record.noConfusion h3
    · exact absurd h4 (List.not_mem_nil _)

end LegionProf
